import Mathlib

/-!
Verification of the Jusbook chatbot (rule-based intent classifier, booking
dialogue state machine, in-memory booking store).

Texts are modelled as `List Char` (`Str`).  Python string primitives used by
the source (`str.lower`, `str.replace`, `re.sub(r"\s+", " ")`, `str.strip`,
`str.split`) are given executable shallow embeddings below, with ASCII
semantics (the data handled by the program is ASCII apart from display-only
characters such as the rupee sign, which are never transformed).
Floating-point scores are modelled with exact rationals; all facts proved
about them are interval facts that are insensitive to rounding.
-/

open List

abbrev Str := List Char

/-- Apostrophe character (U+0027). -/
def apos : Char := Char.ofNat 39

/-- ASCII uppercase test, as used by `str.lower` on the program's data. -/
def isUpperA (c : Char) : Bool := decide (65 ≤ c.toNat) && decide (c.toNat ≤ 90)

/-- Lowercase a single character (ASCII). -/
def lcChar (c : Char) : Char := if isUpperA c then Char.ofNat (c.toNat + 32) else c

/-- Model of `str.lower`. -/
def lowerStr (s : Str) : Str := s.map lcChar

/-- Python `\s` / `str.strip` whitespace class (ASCII): space, tab, LF, VT, FF, CR. -/
def isWS (c : Char) : Bool :=
  c.toNat == 32 || c.toNat == 9 || c.toNat == 10 ||
  c.toNat == 11 || c.toNat == 12 || c.toNat == 13

/-- Boolean list-prefix test. -/
def pfxB : Str → Str → Bool
  | [], _ => true
  | _ :: _, [] => false
  | a :: p, b :: s => a == b && pfxB p s

/-- Boolean substring (contiguous) test: Python `pat in s`. -/
def subB (p : Str) : Str → Bool
  | [] => pfxB p []
  | c :: t => pfxB p (c :: t) || subB p t

/-- Worker for `replaceAll`, structurally recursive: `skip` counts characters
of an already-emitted match still to be consumed. -/
def replAux (pat repl : Str) : Nat → Str → Str
  | _, [] => []
  | k + 1, _ :: t => replAux pat repl k t
  | 0, c :: t =>
    if pat ≠ [] ∧ pfxB pat (c :: t) then
      repl ++ replAux pat repl (pat.length - 1) t
    else
      c :: replAux pat repl 0 t

/-- Model of Python `s.replace(pat, repl)` (left-to-right, non-overlapping).
The `pat ≠ []` guard is for well-definedness only; the program never replaces
an empty pattern. -/
def replaceAll (pat repl : Str) (s : Str) : Str := replAux pat repl 0 s

/-- Worker for `collapseWS`: the flag records being inside a whitespace run
whose single output space was already emitted. -/
def collapseAux : Bool → Str → Str
  | _, [] => []
  | inRun, c :: t =>
    if isWS c then
      (if inRun then collapseAux true t else ' ' :: collapseAux true t)
    else c :: collapseAux false t

/-- Model of `re.sub(r"\s+", " ", s)`: each maximal whitespace run becomes one space. -/
def collapseWS (s : Str) : Str := collapseAux false s

/-- Left strip of whitespace (part of `str.strip`). -/
def stripL (s : Str) : Str := s.dropWhile isWS

/-- Right strip of whitespace (part of `str.strip`). -/
def stripR (s : Str) : Str := (s.reverse.dropWhile isWS).reverse

/-- Model of `str.strip()`. -/
def stripWS (s : Str) : Str := stripR (stripL s)

/-- Contraction table of `NLPProcessor` (insertion order preserved). -/
def contractions : List (Str × Str) :=
  [ (['w', 'o', 'n', apos, 't'], "will not".data),
    (['c', 'a', 'n', apos, 't'], "cannot".data),
    (['n', apos, 't'], " not".data),
    ([apos, 'r', 'e'], " are".data),
    ([apos, 'v', 'e'], " have".data),
    ([apos, 'l', 'l'], " will".data),
    ([apos, 'd'], " would".data),
    ([apos, 'm'], " am".data),
    (['l', 'e', 't', apos, 's'], "let us".data) ]

/-- Model of `NLPProcessor.expand_contractions`. -/
def expand_contractions (s : Str) : Str :=
  contractions.foldl (fun acc pr => replaceAll pr.1 pr.2 acc) s

/-- Model of `NLPProcessor.preprocess_text`. -/
def preprocess_text (s : Str) : Str :=
  if s = [] then []
  else stripWS (collapseWS (expand_contractions (lowerStr s)))

/-! ## Intent classifier (`IntentClassifier`) -/

/-- Word character for regex `\b` / `\w` (ASCII). -/
def isWordChar (c : Char) : Bool :=
  (decide (97 ≤ c.toNat) && decide (c.toNat ≤ 122)) ||
  (decide (65 ≤ c.toNat) && decide (c.toNat ≤ 90)) ||
  (decide (48 ≤ c.toNat) && decide (c.toNat ≤ 57)) || c.toNat == 95

/-- ASCII digit test (regex `\d`). -/
def isDigit (c : Char) : Bool := decide (48 ≤ c.toNat) && decide (c.toNat ≤ 57)

def isWordO : Option Char → Bool
  | none => false
  | some c => isWordChar c

/-- Word boundary between two (optional) adjacent characters. -/
def bdry (a b : Option Char) : Bool := isWordO a != isWordO b

/-- Keyword phrase sets of `IntentClassifier.intent_patterns`, in source order. -/
def greetingPats : List Str :=
  [ "hello".data, "hi".data, "hey".data, "good morning".data, "good afternoon".data,
    "good evening".data, "start".data, "begin".data, "welcome".data, "greetings".data,
    "howdy".data, "what".data ++ [apos] ++ "s up".data ]

def availableSlotsPats : List Str :=
  [ "available slots".data, "free slots".data, "open slots".data, "available times".data,
    "when available".data, "show slots".data, "available appointments".data,
    "free times".data, "what slots".data, "available booking".data, "open times".data,
    "slot availability".data, "when can i book".data, "when are you available".data,
    "booking times".data ]

def servicesPats : List Str :=
  [ "services".data, "what do you offer".data, "what services".data, "service list".data,
    "offerings".data, "what can you do".data, "treatments".data, "procedures".data,
    "service menu".data, "available services".data, "types of service".data,
    "options".data, "what can i book".data ]

def contactInfoPats : List Str :=
  [ "contact".data, "phone".data, "email".data, "address".data, "location".data,
    "reach you".data, "contact information".data, "contact details".data,
    "how to contact".data, "phone number".data, "office address".data,
    "business hours".data, "where located".data, "how to reach".data,
    "where are you located".data ]

def bookSlotPats : List Str :=
  [ "book".data, "booking".data, "appointment".data, "schedule".data, "reserve".data,
    "book slot".data, "make booking".data, "book appointment".data,
    "schedule appointment".data, "reserve slot".data, "i want to book".data,
    "make reservation".data, "book me".data, "reserve time".data, "can i book".data ]

def upcomingEventsPats : List Str :=
  [ "events".data, "upcoming events".data, "what".data ++ [apos] ++ "s happening".data,
    "special events".data, "workshops".data, "upcoming".data, "events calendar".data,
    "scheduled events".data, "what events".data, "event schedule".data,
    "activities".data, "calendar".data, "upcoming bookings".data, "my bookings".data,
    "show my bookings".data, "future appointments".data, "my schedule".data ]

def slotBroadcastPats : List Str :=
  [ "broadcast".data, "slot broadcast".data, "latest slots".data, "new slots".data,
    "recent slots".data, "slot updates".data, "broadcast slots".data,
    "slot notifications".data, "slot alerts".data, "special offers".data,
    "featured slots".data ]

def cancelBookingPats : List Str :=
  [ "cancel".data, "cancel booking".data, "cancel appointment".data,
    "cancellation".data, "cancel reservation".data, "cancel slot".data,
    "remove booking".data, "cancel my slot".data, "i need to cancel".data,
    "can".data ++ [apos] ++ "t make it".data, "reschedule".data, "change booking".data,
    "delete booking".data ]

def helpPats : List Str :=
  [ "help".data, "what can you help".data, "what can you do".data, "assistance".data,
    "support".data, "how to use".data, "guide me".data, "instructions".data,
    "what are your capabilities".data, "how does this work".data, "guidance".data,
    "features".data, "capabilities".data ]

/-- The intent table, in the insertion order of `intent_patterns`. -/
def intentTable : List (String × List Str) :=
  [ ("greeting", greetingPats), ("available_slots", availableSlotsPats),
    ("services", servicesPats), ("contact_info", contactInfoPats),
    ("book_slot", bookSlotPats), ("upcoming_events", upcomingEventsPats),
    ("slot_broadcast", slotBroadcastPats), ("cancel_booking", cancelBookingPats),
    ("help", helpPats) ]

/-- Try the regex alternation `\b(?:p₁|p₂|…)\b` at the current position: the first
alternative that matches here, with a word boundary before and after, wins
(Python regex alternation order with backtracking over the trailing `\b`). -/
def altMatchAt (pats : List Str) (prev : Option Char) (s : Str) : Option Str :=
  pats.find? (fun p =>
    !p.isEmpty && pfxB p s && bdry prev p.head? && bdry p.getLast? ((s.drop p.length).head?))

/-- Worker for `countMatches`: `skip` counts characters of the last match
still to be consumed before scanning resumes. -/
def countAux (pats : List Str) : Nat → Option Char → Str → Nat
  | _, _, [] => 0
  | k + 1, prev, _ :: t => countAux pats k prev t
  | 0, prev, c :: t =>
    match altMatchAt pats prev (c :: t) with
    | some p => 1 + countAux pats (p.length - 1) p.getLast? t
    | none => countAux pats 0 (some c) t

/-- Number of matches of `pattern.findall(text)`: leftmost, non-overlapping scan. -/
def countMatches (pats : List Str) (prev : Option Char) (s : Str) : Nat :=
  countAux pats 0 prev s

/-- Model of Python `text.split()` (split on whitespace runs, dropping empties). -/
def splitWSAux (cur : Str) : Str → List Str
  | [] => if cur.isEmpty then [] else [cur.reverse]
  | c :: t =>
    if isWS c then
      (if cur.isEmpty then splitWSAux [] t else cur.reverse :: splitWSAux [] t)
    else splitWSAux (c :: cur) t

def splitWS (s : Str) : List Str := splitWSAux [] s

/-- Ordered score map, modelling the insertion-ordered Python dict of scores. -/
def lookupSc (scores : List (String × ℚ)) (k : String) : Option ℚ :=
  (scores.find? (fun e => e.1 == k)).map Prod.snd

/-- Dict assignment `scores[k] = v`: update in place, else append. -/
def setSc (scores : List (String × ℚ)) (k : String) (v : ℚ) : List (String × ℚ) :=
  if scores.any (fun e => e.1 == k) then
    scores.map (fun e => if e.1 == k then (k, v) else e)
  else scores ++ [(k, v)]

/-- Dict line `scores[k] = max(scores.get(k, 0), v)`. -/
def setMax (scores : List (String × ℚ)) (k : String) (v : ℚ) : List (String × ℚ) :=
  setSc scores k (max ((lookupSc scores k).getD 0) v)

/-- Pattern-based scoring loop of `classify_intent` (base score, phrase bonus,
length penalty, upper cap at 1.0). -/
def baseScores (text : Str) : List (String × ℚ) :=
  intentTable.foldl (fun acc pr =>
    let m := countMatches pr.2 none text
    if m = 0 then acc
    else
      let base : ℚ := (m : ℚ) * (3 / 10) + ((pr.2.countP (fun p => subB p text)) : ℚ) * (4 / 10)
      let pen : ℚ := min (((splitWS text).length : ℚ) / 20) (2 / 10)
      setSc acc pr.1 (min (base - pen) 1)) []

def anySub (ws : List Str) (t : Str) : Bool := ws.any (fun w => subB w t)

def greetingWords : List Str :=
  [ "hi".data, "hello".data, "hey".data, "good morning".data, "good afternoon".data,
    "good evening".data ]

def questionWords : List Str :=
  [ "what".data, "where".data, "when".data, "how".data, "which".data, "who".data ]

def broadcastTerms : List Str :=
  [ "broadcast".data, "latest".data, "new slots".data, "updates".data,
    "notifications".data, "alerts".data ]

def upcomingTerms : List Str :=
  [ "upcoming".data, "future".data, "calendar".data, "schedule".data,
    "my bookings".data, "events".data ]

def politeWords : List Str :=
  [ "please".data, "could you".data, "can you".data, "would you".data ]

/-- Scanner for `\w` after `\s+` (tail of regexes `slot\s+\w+` and `book\s+\w+`). -/
def wordAfterWS : Str → Bool
  | [] => false
  | c :: t => if isWS c then wordAfterWS t else isWordChar c

def wsThenWord : Str → Bool
  | [] => false
  | c :: t => isWS c && wordAfterWS t

/-- Generic `re.search` for a literal followed by a continuation condition. -/
def searchAfterLit (lit : Str) (cont : Str → Bool) : Str → Bool
  | [] => false
  | c :: t => (pfxB lit (c :: t) && cont ((c :: t).drop lit.length)) || searchAfterLit lit cont t

/-- Search for `slot\s+\w+`. -/
def searchSlotW (s : Str) : Bool := searchAfterLit "slot".data wsThenWord s

/-- Search for `book\s+\w+`. -/
def searchBookW (s : Str) : Bool := searchAfterLit "book".data wsThenWord s

/-- Search for `SL\d+` (IGNORECASE; the text is already lowercased). -/
def searchSLd (s : Str) : Bool :=
  searchAfterLit "sl".data (fun r => match r with | c :: _ => isDigit c | [] => false) s

/-- Search for `\d+/\d+` or `\d+-\d+`: a digit, the separator, a digit, adjacent. -/
def digitSepDigit (sep : Char) : Str → Bool
  | a :: b :: c :: t => (isDigit a && b == sep && isDigit c) || digitSepDigit sep (b :: c :: t)
  | _ => false

/-- Model of `IntentClassifier._apply_special_rules`.  The three slot-ID regexes
each trigger the same `setMax book_slot 0.8` line; consecutive identical
`setMax` calls coincide, so they are folded into one conditional. -/
def apply_special_rules (text : Str) (scores : List (String × ℚ)) : List (String × ℚ) :=
  let s1 :=
    if (splitWS text).length ≤ 3 && anySub greetingWords text then
      setMax scores "greeting" (8 / 10)
    else scores
  let s2 :=
    if anySub questionWords text then
      if subB "services".data text || subB "offer".data text then
        setMax s1 "services" (7 / 10)
      else if subB "contact".data text || subB "reach".data text || subB "phone".data text then
        setMax s1 "contact_info" (7 / 10)
      else if subB "slots".data text || subB "available".data text then
        setMax s1 "available_slots" (7 / 10)
      else if subB "broadcast".data text || subB "latest".data text then
        setMax s1 "slot_broadcast" (7 / 10)
      else if subB "upcoming".data text || subB "events".data text || subB "bookings".data text then
        setMax s1 "upcoming_events" (7 / 10)
      else s1
    else s1
  let s3 :=
    if searchSlotW text || searchSLd text || searchBookW text then
      setMax s2 "book_slot" (8 / 10)
    else s2
  let s4 :=
    if subB "today".data text || subB "tomorrow".data text || subB "next week".data text ||
        subB "this week".data text || digitSepDigit '/' text || digitSepDigit '-' text then
      if subB "book".data text then setMax s3 "book_slot" (7 / 10)
      else setMax s3 "available_slots" (6 / 10)
    else s3
  let s5 :=
    if anySub broadcastTerms text then setMax s4 "slot_broadcast" (8 / 10) else s4
  let s6 :=
    if anySub upcomingTerms text then setMax s5 "upcoming_events" (8 / 10) else s5
  if anySub politeWords text then s6.map (fun e => (e.1, min (e.2 + 1 / 10) 1)) else s6

/-- Python `max(items, key=…)`: the first item with the maximal score wins ties. -/
def maxScore : List (String × ℚ) → Option (String × ℚ)
  | [] => none
  | e :: rest =>
    match maxScore rest with
    | none => some e
    | some b => some (if e.2 < b.2 then b else e)

/-- Model of `IntentClassifier.classify_intent`. -/
def classify_intent (text : Str) : String × ℚ :=
  if text = [] ∨ stripWS text = [] then ("greeting", 1 / 2)
  else
    let t := stripWS (lowerStr text)
    let sc := apply_special_rules t (baseScores t)
    match maxScore sc with
    | none => ("fallback", 0)
    | some best => if best.2 < 1 / 5 then ("fallback", best.2) else best

/-! ## Booking store (`DataStore`) -/

structure Service where
  sid : String
  name : Str
  description : Str
  duration : Str
  price : Str
deriving DecidableEq, Repr

structure Slot where
  slot_id : Str
  date : Str
  day : Str
  time : Str
  service : Str
  duration : Str
  available : Bool
  price : Str
deriving DecidableEq, Repr

/-- Booking record.  The `created_at` / `cancelled_at` wall-clock timestamps of
the source are not modelled: they are never read by the program. -/
structure Booking where
  booking_id : Str
  slot_id : Str
  customer_name : Str
  contact : Str
  service : Str
  date : Str
  time : Str
  duration : Str
  price : Str
  status : String
deriving DecidableEq, Repr

structure Event where
  eid : String
  title : Str
  date : Str
  time : Str
  description : Str
  booking_required : Bool
  price : Str
deriving DecidableEq, Repr

structure ContactInfo where
  phone : Str
  email : Str
  address : Str
  website : Str
  hours : Str
  social_media : List (Str × Str)
deriving DecidableEq, Repr

/-- The in-memory store.  Python's `bookings` dict is an insertion-ordered
association list; `nextId` models the stream of fresh `uuid4` suffixes used
for booking IDs (the source relies on their uniqueness). -/
structure DataStore where
  services : List Service
  slots : List Slot
  bookings : List (Str × Booking)
  events : List Event
  contact_info : ContactInfo
  nextId : Nat
deriving DecidableEq, Repr

/-- Service catalog of `DataStore._load_services`. -/
def defaultServices : List Service :=
  [ { sid := "haircut", name := "Haircut & Styling".data,
      description := "Professional haircut and styling service".data,
      duration := "45 minutes".data, price := "₹500".data },
    { sid := "hairwash", name := "Hair Wash".data,
      description := "Professional hair washing and conditioning service".data,
      duration := "30 minutes".data, price := "₹300".data },
    { sid := "beardtrim", name := "Beard Trim".data,
      description := "Professional beard trimming and shaping".data,
      duration := "25 minutes".data, price := "₹250".data },
    { sid := "haircolor", name := "Hair Color".data,
      description := "Professional hair coloring service".data,
      duration := "120 minutes".data, price := "₹1500".data },
    { sid := "facial", name := "Facial / Grooming".data,
      description := "Deep cleansing facial and grooming treatment".data,
      duration := "60 minutes".data, price := "₹800".data },
    { sid := "massage", name := "Massage (Head / Shoulder)".data,
      description := "Relaxing head and shoulder massage therapy".data,
      duration := "45 minutes".data, price := "₹600".data },
    { sid := "kidshaircut", name := "Kids Haircut".data,
      description := "Specialized haircut service for children".data,
      duration := "30 minutes".data, price := "₹350".data },
    { sid := "makeover", name := "Complete Makeover Package".data,
      description := "Complete makeover with multiple services".data,
      duration := "180 minutes".data, price := "₹2500".data },
    { sid := "bridal", name := "Bridal Grooming".data,
      description := "Special bridal grooming and styling package".data,
      duration := "240 minutes".data, price := "₹5000".data },
    { sid := "custom", name := "Custom Service (Other)".data,
      description := "Custom service as per your requirements".data,
      duration := "60 minutes".data, price := "Contact for pricing".data } ]

/-- Contact details of `DataStore._load_contact_info`. -/
def defaultContactInfo : ContactInfo :=
  { phone := "+91-9876543210".data, email := "contact@jusbook.com".data,
    address := "123 Beauty Street, Jubilee Hills, Hyderabad, Telangana 500033".data,
    website := "https://jusbook.com".data,
    hours := "Monday to Saturday: 9:00 AM - 7:00 PM (Closed Sundays)".data,
    social_media :=
      [ ("instagram".data, "@jusbook_official".data),
        ("facebook".data, "facebook.com/jusbook".data),
        ("twitter".data, "@jusbook_com".data) ] }

def get_services (s : DataStore) : List Service := s.services

/-- Model of `DataStore.get_available_time_slots` (a static list). -/
def get_available_time_slots : List Str :=
  [ "10:00 AM".data, "11:00 AM".data, "12:30 PM".data, "02:00 PM".data,
    "03:15 PM".data, "04:30 PM".data, "06:00 PM".data, "07:15 PM".data ]

/-- Model of `DataStore.get_staff_options`. -/
def get_staff_options : List Str :=
  [ "Any Available Staff".data, "Senior Stylist".data, "Junior Stylist".data,
    "Specific Staff (Name if known)".data ]

/-- Model of `DataStore.get_available_slots` (the optional filters are `None`
or non-empty, matching Python truthiness at the call sites). -/
def get_available_slots (date_filter service_filter : Option Str) (s : DataStore) : List Slot :=
  let a1 := s.slots.filter (fun sl => sl.available)
  let a2 := match date_filter with
    | some d => a1.filter (fun sl => sl.date == d)
    | none => a1
  match service_filter with
  | some f => a2.filter (fun sl => subB (lowerStr f) (lowerStr sl.service))
  | none => a2

/-- Model of `DataStore.get_slot_by_id` (first slot with this ID that is available). -/
def get_slot_by_id (slot_id : Str) (s : DataStore) : Option Slot :=
  s.slots.find? (fun sl => sl.slot_id == slot_id && sl.available)

/-- In-place mutation of the first list element satisfying `p` (a Python
`for … if …: mutate; break` loop). -/
def mapFirst (p : α → Bool) (f : α → α) : List α → List α
  | [] => []
  | a :: t => if p a then f a :: t else a :: mapFirst p f t

/-- Decimal digit string of a natural number (most significant digit first).
The fuel argument makes the recursion structural; `n + 1` fuel always
suffices. -/
def decCharsAux : Nat → Nat → Str
  | 0, _ => []
  | fuel + 1, n =>
    if n < 10 then [Nat.digitChar n]
    else decCharsAux fuel (n / 10) ++ [Nat.digitChar (n % 10)]

def decChars (n : Nat) : Str := decCharsAux (n + 1) n

/-- Python `f"{n:03d}"`. -/
def pad3 (n : Nat) : Str :=
  let d := decChars n
  List.replicate (3 - d.length) '0' ++ d

/-- Modelled from the spec: the day-of-week label `strftime("%A")` attached to a
synthesized slot.  Calendar arithmetic is outside the embedding and the value
is never inspected by the program or by any claim. -/
def dayName (_date : Str) : Str := []

/-- Model of `DataStore.find_or_create_slot`. -/
def find_or_create_slot (service date time : Str) (s : DataStore) : Slot × DataStore :=
  match s.slots.find? (fun sl =>
      sl.date == date && sl.time == time && sl.service == service && sl.available) with
  | some sl => (sl, s)
  | none =>
    match s.slots.find? (fun sl => sl.date == date && sl.time == time && sl.available) with
    | some sl =>
      let svc := s.services.find? (fun sv => sv.name == service)
      let upd := fun (x : Slot) =>
        match svc with
        | some sv => { x with service := service, duration := sv.duration, price := sv.price }
        | none => { x with service := service }
      (upd sl,
       { s with slots :=
          mapFirst (fun x => x.date == date && x.time == time && x.available) upd s.slots })
    | none =>
      let svc := s.services.find? (fun sv => sv.name == service)
      let slotId := "SL".data ++ date.filter (fun c => !(c == '-')) ++ pad3 s.slots.length
      let newSlot : Slot :=
        { slot_id := slotId, date := date, day := dayName date, time := time,
          service := service,
          duration := (match svc with | some sv => sv.duration | none => "60 minutes".data),
          available := true,
          price := (match svc with | some sv => sv.price | none => "Contact for pricing".data) }
      (newSlot, { s with slots := s.slots ++ [newSlot] })

/-- Insertion-ordered dict assignment `m[k] = v`. -/
def dictSet {κ α : Type} [BEq κ] (m : List (κ × α)) (k : κ) (v : α) : List (κ × α) :=
  if m.any (fun e => e.1 == k) then
    m.map (fun e => if e.1 == k then (k, v) else e)
  else m ++ [(k, v)]

/-- Fresh booking identifier `f"BK{uuid.uuid4().hex[:8].upper()}"`: the random
hex suffix is modelled by the fresh-counter stream `nextId` (the source relies
only on uniqueness of these identifiers). -/
def mkBookingId (n : Nat) : Str := "BK".data ++ decChars n

structure BookResult where
  success : Bool
  error : Option Str
  booking_id : Option Str
  booking : Option Booking
deriving DecidableEq, Repr

/-- Model of `DataStore.book_slot`. -/
def book_slot (slot_id service customer_name contact : Str) (s : DataStore) :
    BookResult × DataStore :=
  match get_slot_by_id slot_id s with
  | none =>
    ({ success := false, error := some "Slot not found or not available".data,
       booking_id := none, booking := none }, s)
  | some sl =>
    let bid := mkBookingId s.nextId
    let booking : Booking :=
      { booking_id := bid, slot_id := slot_id, customer_name := customer_name,
        contact := contact, service := service, date := sl.date, time := sl.time,
        duration := sl.duration, price := sl.price, status := "confirmed" }
    ({ success := true, error := none, booking_id := some bid, booking := some booking },
     { s with
        bookings := dictSet s.bookings bid booking,
        slots := mapFirst (fun x => x.slot_id == slot_id)
          (fun x => { x with available := false }) s.slots,
        nextId := s.nextId + 1 })

def get_booking (booking_id : Str) (s : DataStore) : Option Booking :=
  (s.bookings.find? (fun e => e.1 == booking_id)).map Prod.snd

structure CancelResult where
  success : Bool
  error : Option Str
  message : Option Str
deriving DecidableEq, Repr

/-- Model of `DataStore.cancel_booking`. -/
def cancel_booking (booking_id : Str) (s : DataStore) : CancelResult × DataStore :=
  match get_booking booking_id s with
  | none => ({ success := false, error := some "Booking not found".data, message := none }, s)
  | some b =>
    ({ success := true, error := none, message := some "Booking cancelled successfully".data },
     { s with
        slots := mapFirst (fun x => x.slot_id == b.slot_id)
          (fun x => { x with available := true }) s.slots,
        bookings := s.bookings.map (fun e =>
          if e.1 == booking_id then (e.1, { e.2 with status := "cancelled" }) else e) })

/-- Lexicographic (code-point) string comparison, Python `s <= t`. -/
def lexLe : Str → Str → Bool
  | [], _ => true
  | _ :: _, [] => false
  | a :: s, b :: t => if a == b then lexLe s t else decide (a < b)

/-- Model of `DataStore.get_upcoming_events` (dates compare as strings). -/
def get_upcoming_events (today : Str) (s : DataStore) : List Event :=
  s.events.filter (fun e => lexLe today e.date)

def get_contact_info (s : DataStore) : ContactInfo := s.contact_info

/-- A store as produced by `DataStore.__init__`: empty bookings, the default
catalog, and sample slots from `_generate_sample_slots`, which are pairwise
distinct IDs of shape `SL{MMDD}{i:02d}` (length 8), all available.  The slot
sample itself is randomized, so it is constrained, not fixed. -/
def isFreshStore (s : DataStore) : Prop :=
  s.services = defaultServices ∧
  s.bookings = [] ∧
  s.nextId = 0 ∧
  (∀ sl ∈ s.slots, sl.available = true ∧ sl.slot_id.length = 8) ∧
  (s.slots.map Slot.slot_id).Nodup

instance (s : DataStore) : Decidable (isFreshStore s) := by
  unfold isFreshStore; infer_instance

/-! ## Dialogue engine (`JusbookChatbot`) -/

structure LastBooking where
  name : Str
  service : Str
  date : Str
  time : Str
  duration : Str
  contact : Str
  booking_id : Str
  slot_id : Str
  price : Str
  staff : Str
deriving DecidableEq, Repr

/-- The session `context` dict; only these four keys are ever written or read. -/
structure Ctx where
  selected_service : Option Str
  selected_time_slot : Option Str
  staff_preference : Option Str
  last_booking : Option LastBooking
deriving DecidableEq, Repr

def emptyCtx : Ctx :=
  { selected_service := none, selected_time_slot := none, staff_preference := none,
    last_booking := none }

structure Session where
  context : Ctx
  last_intent : Option String
  conversation_state : String
deriving DecidableEq, Repr

/-- Session created on first contact in `process_message`. -/
def freshSession : Session :=
  { context := emptyCtx, last_intent := none, conversation_state := "greeting" }

/-- Wall-clock date strings used by the engine (`datetime.now()` and offsets);
date arithmetic itself is outside the embedding. -/
structure Clock where
  today : Str
  tomorrow : Str
  nextWeek : Str

/-- Keyword table of `_match_service_from_text`, in source order. -/
def serviceKeywords : List (Str × Str) :=
  [ ("haircut".data, "Haircut & Styling".data),
    ("hair cut".data, "Haircut & Styling".data),
    ("cut".data, "Haircut & Styling".data),
    ("styling".data, "Haircut & Styling".data),
    ("hair wash".data, "Hair Wash".data),
    ("wash".data, "Hair Wash".data),
    ("beard".data, "Beard Trim".data),
    ("trim".data, "Beard Trim".data),
    ("beard trim".data, "Beard Trim".data),
    ("hair color".data, "Hair Color".data),
    ("color".data, "Hair Color".data),
    ("coloring".data, "Hair Color".data),
    ("facial".data, "Facial / Grooming".data),
    ("grooming".data, "Facial / Grooming".data),
    ("massage".data, "Massage (Head / Shoulder)".data),
    ("head massage".data, "Massage (Head / Shoulder)".data),
    ("shoulder massage".data, "Massage (Head / Shoulder)".data),
    ("kids".data, "Kids Haircut".data),
    ("kid".data, "Kids Haircut".data),
    ("children".data, "Kids Haircut".data),
    ("makeover".data, "Complete Makeover Package".data),
    ("package".data, "Complete Makeover Package".data),
    ("bridal".data, "Bridal Grooming".data),
    ("bride".data, "Bridal Grooming".data),
    ("wedding".data, "Bridal Grooming".data),
    ("custom".data, "Custom Service (Other)".data),
    ("other".data, "Custom Service (Other)".data) ]

/-- Model of `_match_service_from_text`. -/
def match_service_from_text (text : Str) (services : List Service) : Option Str :=
  let tl := stripWS (lowerStr text)
  match services.find? (fun sv => lowerStr sv.name == tl) with
  | some sv => some sv.name
  | none =>
    match services.find? (fun sv => subB (lowerStr sv.name) tl || subB tl (lowerStr sv.name)) with
    | some sv => some sv.name
    | none => (serviceKeywords.find? (fun kv => subB kv.1 tl)).map Prod.snd

def digitVal (c : Char) : Nat := c.toNat - 48

/-- Uppercase a single character (ASCII), for `str.upper` / `str.title`. -/
def ucChar (c : Char) : Char :=
  if decide (97 ≤ c.toNat) && decide (c.toNat ≤ 122) then Char.ofNat (c.toNat - 32) else c

def upperStr (s : Str) : Str := s.map ucChar

/-- Python `f"{n:02d}"`. -/
def pad2 (n : Nat) : Str :=
  let d := decChars n
  List.replicate (2 - d.length) '0' ++ d

/-- Regex tail `\s*(am|pm)`: greedily skip whitespace, then try `am`, then `pm`. -/
def ampmAt (s : Str) : Option Str :=
  let r := s.dropWhile isWS
  if pfxB "am".data r then some "am".data
  else if pfxB "pm".data r then some "pm".data
  else none

/-- Match `(\d{1,2}):(\d{2})\s*(am|pm)?` at the current position (greedy hour,
backtracking from two digits to one). -/
def p1At (s : Str) : Option (Nat × Str × Option Str) :=
  let try2 :=
    match s with
    | a :: b :: ':' :: m1 :: m2 :: rest =>
      if isDigit a && isDigit b && isDigit m1 && isDigit m2 then
        some (10 * digitVal a + digitVal b, [m1, m2], ampmAt rest)
      else none
    | _ => none
  let try1 :=
    match s with
    | a :: ':' :: m1 :: m2 :: rest =>
      if isDigit a && isDigit m1 && isDigit m2 then
        some (digitVal a, [m1, m2], ampmAt rest)
      else none
    | _ => none
  try2.orElse fun _ => try1

/-- Match `(\d{1,2})\s*(am|pm)` at the current position.  Group 2 is the
meridian, which is not a digit string, so the caller's minute defaults to
`"00"`, and `am_pm` is `None` because the pattern has only two groups. -/
def p2At (s : Str) : Option (Nat × Str × Option Str) :=
  let try2 :=
    match s with
    | a :: b :: rest =>
      if isDigit a && isDigit b then
        (ampmAt rest).map (fun _ => (10 * digitVal a + digitVal b, "00".data, (none : Option Str)))
      else none
    | _ => none
  let try1 :=
    match s with
    | a :: rest =>
      if isDigit a then (ampmAt rest).map (fun _ => (digitVal a, "00".data, (none : Option Str)))
      else none
    | _ => none
  try2.orElse fun _ => try1

/-- Match `(\d{1,2}):(\d{2})` at the current position (two groups, so `am_pm`
is `None`). -/
def p3At (s : Str) : Option (Nat × Str × Option Str) :=
  let try2 :=
    match s with
    | a :: b :: ':' :: m1 :: m2 :: _ =>
      if isDigit a && isDigit b && isDigit m1 && isDigit m2 then
        some (10 * digitVal a + digitVal b, [m1, m2], (none : Option Str))
      else none
    | _ => none
  let try1 :=
    match s with
    | a :: ':' :: m1 :: m2 :: _ =>
      if isDigit a && isDigit m1 && isDigit m2 then
        some (digitVal a, [m1, m2], (none : Option Str))
      else none
    | _ => none
  try2.orElse fun _ => try1

/-- Leftmost `re.search`: try the position matcher at every index. -/
def searchPos (f : Str → Option α) : Str → Option α
  | [] => f []
  | c :: t => (f (c :: t)).orElse fun _ => searchPos f t

/-- Hour/meridian normalization and `f"{hour:02d}:{minute} {am_pm.upper()}"` of
`_match_time_slot_from_text`. -/
def convTime (hour0 : Nat) (minute : Str) (ampm0 : Option Str) : Str :=
  let hm :=
    if hour0 < 12 ∧ ampm0 = none then (hour0, "am".data)
    else if 12 ≤ hour0 then
      ((if 12 < hour0 then hour0 - 12 else hour0), ampm0.getD "pm".data)
    else (hour0, ampm0.getD [])
  pad2 hm.1 ++ [':'] ++ minute ++ [' '] ++ upperStr hm.2

/-- One `if formatted_time in available_slots: return formatted_time` step. -/
def tryTimePattern (r : Option (Nat × Str × Option Str)) : Option Str :=
  match r with
  | some x =>
    let ft := convTime x.1 x.2.1 x.2.2
    if ft ∈ get_available_time_slots then some ft else none
  | none => none

/-- Model of `_match_time_slot_from_text`. -/
def match_time_slot_from_text (text : Str) : Option Str :=
  let tl := stripWS (lowerStr text)
  match get_available_time_slots.find? (fun sl => lowerStr sl == tl) with
  | some sl => some sl
  | none =>
    match get_available_time_slots.find? (fun sl =>
        let st := lowerStr (replaceAll " PM".data [] (replaceAll " AM".data [] sl))
        subB st tl || subB tl st) with
    | some sl => some sl
    | none =>
      (tryTimePattern (searchPos p1At tl)).orElse fun _ =>
        (tryTimePattern (searchPos p2At tl)).orElse fun _ =>
          tryTimePattern (searchPos p3At tl)

/-- Model of `_match_staff_from_text`. -/
def match_staff_from_text (text : Str) : Option Str :=
  let tl := stripWS (lowerStr text)
  match get_staff_options.find? (fun o => lowerStr o == tl) with
  | some o => some o
  | none =>
    if subB "any".data tl || subB "anyone".data tl || subB "no preference".data tl then
      some "Any Available Staff".data
    else if subB "senior".data tl then some "Senior Stylist".data
    else if subB "junior".data tl then some "Junior Stylist".data
    else if subB "specific".data tl || subB "name".data tl then
      some "Specific Staff (Name if known)".data
    else none

/-- Candidate parses of `\d{1,2}` at the current position, in greedy order. -/
def dd1or2 : Str → List (Str × Str)
  | [] => []
  | [a] => if isDigit a then [([a], [])] else []
  | a :: b :: rest =>
    if isDigit a && isDigit b then [([a, b], rest), ([a], b :: rest)]
    else if isDigit a then [([a], b :: rest)]
    else []

/-- Match `\d{1,2}<sep>\d{1,2}` at the current position, with backtracking. -/
def ddSepAt (sep : Char) (s : Str) : Option Str :=
  ((dd1or2 s).filterMap (fun pr =>
    match pr.2 with
    | c :: r2 =>
      if c == sep then ((dd1or2 r2).head?).map (fun x => pr.1 ++ [sep] ++ x.1) else none
    | [] => none)).head?

/-- Match `\d{4}-\d{2}-\d{2}` at the current position. -/
def ymdAt (s : Str) : Option Str :=
  match s with
  | a :: b :: c :: d :: '-' :: e :: f :: '-' :: g :: h :: _ =>
    if isDigit a && isDigit b && isDigit c && isDigit d && isDigit e && isDigit f &&
        isDigit g && isDigit h then
      some [a, b, c, d, '-', e, f, '-', g, h]
    else none
  | _ => none

/-- Model of `_extract_date_from_message`. -/
def extract_date_from_message (clock : Clock) (message : Str) : Option Str :=
  let ml := lowerStr message
  if subB "today".data ml then some clock.today
  else if subB "tomorrow".data ml then some clock.tomorrow
  else if subB "next week".data ml then some clock.nextWeek
  else
    (searchPos ymdAt message).orElse fun _ =>
      (searchPos (ddSepAt '/') message).orElse fun _ =>
        searchPos (ddSepAt '-') message

/-- Model of `_extract_service_from_message`. -/
def extract_service_from_message (services : List Service) (message : Str) : Option Str :=
  (services.find? (fun sv => subB (lowerStr sv.name) (lowerStr message))).map Service.name

/-- Match `booking\s+(\w+)` at the current position (group 1 returned). -/
def bookingIdAt (s : Str) : Option Str :=
  if pfxB "booking".data s then
    match s.drop 7 with
    | c :: t =>
      if isWS c then
        let w := ((c :: t).dropWhile isWS).takeWhile isWordChar
        if w.isEmpty then none else some w
      else none
    | [] => none
  else none

/-- Match `(BK\d+)` at the current position (IGNORECASE; messages reaching this
helper have already been lowercased by preprocessing). -/
def bkAt (s : Str) : Option Str :=
  if pfxB "bk".data s then
    let w := (s.drop 2).takeWhile isDigit
    if w.isEmpty then none else some ("bk".data ++ w)
  else none

/-- Match `id\s+(\w+)` at the current position (group 1 returned). -/
def idAt (s : Str) : Option Str :=
  if pfxB "id".data s then
    match s.drop 2 with
    | c :: t =>
      if isWS c then
        let w := ((c :: t).dropWhile isWS).takeWhile isWordChar
        if w.isEmpty then none else some w
      else none
    | [] => none
  else none

/-- Model of `_extract_booking_id_from_message`. -/
def extract_booking_id_from_message (message : Str) : Option Str :=
  (searchPos bookingIdAt message).orElse fun _ =>
    (searchPos bkAt message).orElse fun _ => searchPos idAt message

/-- Single-quote wrapper used by several response strings. -/
def q (s : String) : Str := [apos] ++ s.data ++ [apos]

/-- First entry of the `greetings` list; `_handle_greeting` always returns it. -/
def handle_greeting : Str :=
  "Hello! Welcome to Jusbook. I".data ++ [apos] ++
  "m here to help you with appointments and bookings. How can I assist you today?".data

def slotLine (sl : Slot) : Str :=
  "📅 ".data ++ sl.date ++ " at ".data ++ sl.time ++
  "\n   Service: ".data ++ sl.service ++
  "\n   Duration: ".data ++ sl.duration ++
  "\n   Slot ID: ".data ++ sl.slot_id ++ "\n\n".data

/-- Model of `_handle_available_slots`. -/
def handle_available_slots (clock : Clock) (message : Str) (store : DataStore) : Str :=
  let dm := extract_date_from_message clock message
  let sm := extract_service_from_message store.services message
  let slots := get_available_slots dm sm store
  if slots = [] then
    "I".data ++ [apos] ++
    "m sorry, no slots are currently available for your requested criteria. Would you like me to show all available slots or help you with something else?".data
  else
    "Here are the available booking slots:\n\n".data ++
    (slots.take 8).foldl (fun acc sl => acc ++ slotLine sl) [] ++
    (if 8 < slots.length then
      "... and ".data ++ decChars (slots.length - 8) ++ " more slots available.\n\n".data
     else []) ++
    "Would you like to book any of these slots? Just let me know the Slot ID!".data

def serviceLine (sv : Service) : Str :=
  "🔹 **".data ++ sv.name ++
  "**\n   Description: ".data ++ sv.description ++
  "\n   Duration: ".data ++ sv.duration ++
  "\n   Price: ".data ++ sv.price ++ "\n\n".data

/-- Model of `_handle_services`. -/
def handle_services (store : DataStore) : Str :=
  "Here are the services we offer at Jusbook:\n\n".data ++
  store.services.foldl (fun acc sv => acc ++ serviceLine sv) [] ++
  "Would you like to book any of these services or check available slots?".data

def isAlphaA (c : Char) : Bool :=
  (decide (97 ≤ c.toNat) && decide (c.toNat ≤ 122)) ||
  (decide (65 ≤ c.toNat) && decide (c.toNat ≤ 90))

/-- Python `str.title()` (ASCII): uppercase at word starts, lowercase elsewhere. -/
def titleAux (prevAlpha : Bool) : Str → Str
  | [] => []
  | c :: t =>
    (if isAlphaA c then (if prevAlpha then lcChar c else ucChar c) else c) ::
      titleAux (isAlphaA c) t

def titleStr (s : Str) : Str := titleAux false s

/-- Model of `_handle_contact_info`. -/
def handle_contact_info (store : DataStore) : Str :=
  let ci := store.contact_info
  "Here".data ++ [apos] ++ "s how you can reach us:\n\n".data ++
  "📞 **Phone:** ".data ++ ci.phone ++ "\n".data ++
  "📧 **Email:** ".data ++ ci.email ++ "\n".data ++
  "🏢 **Address:** ".data ++ ci.address ++ "\n".data ++
  "🕐 **Business Hours:** ".data ++ ci.hours ++ "\n\n".data ++
  "🌐 **Website:** ".data ++ ci.website ++ "\n".data ++
  (if ci.social_media = [] then []
   else
    "\n**Follow us on:**\n".data ++
    ci.social_media.foldl (fun acc pr =>
      acc ++ "• ".data ++ titleStr pr.1 ++ ": ".data ++ pr.2 ++ "\n".data) []) ++
  "\nIs there anything else you".data ++ [apos] ++ "d like to know?".data

/-- Model of `_show_service_selection`. -/
def show_service_selection (store : DataStore) : Str :=
  "Please select a service from the dropdown below:\n\nServices List:\n".data ++
  store.services.foldl (fun acc sv => acc ++ "• ".data ++ sv.name ++ "\n".data) []

/-- Model of `_show_time_slot_selection`. -/
def show_time_slot_selection : Str :=
  "Great! Please select an available time slot for your chosen service:\n\nAvailable Slots:\n".data ++
  get_available_time_slots.foldl (fun acc sl => acc ++ "• ".data ++ sl ++ "\n".data) []

/-- Model of `_show_staff_selection`. -/
def show_staff_selection : Str :=
  "Would you like to choose a preferred stylist?\n\nStaff Preference:\n".data ++
  get_staff_options.foldl (fun acc o => acc ++ "• ".data ++ o ++ "\n".data) []

/-- Model of `_show_service_details` (a `None` selection prints as `"None"`,
matching Python f-string semantics). -/
def show_service_details (session : Session) (store : DataStore) : Str :=
  let ctx := session.context
  let sd : Option Service :=
    match ctx.selected_service with
    | some nm => store.services.find? (fun sv => sv.name == nm)
    | none => none
  match sd with
  | none => "Error: Service not found. Please start over.".data
  | some sv =>
    "Service Summary:\n\n".data ++
    "Service: ".data ++ (ctx.selected_service.getD "None".data) ++ "\n".data ++
    "Duration: ".data ++ sv.duration ++ "\n".data ++
    "Price: ".data ++ sv.price ++ "\n".data ++
    "Slot: ".data ++ (ctx.selected_time_slot.getD "None".data) ++ "\n".data ++
    "Staff: ".data ++ (ctx.staff_preference.getD "Any Available Staff".data) ++ "\n\n".data ++
    "Would you like to confirm this booking?\n\nOptions:\n• Confirm Booking\n• Cancel\n• Modify\n".data

/-- Python `message.split(',')`. -/
def splitChar (sep : Char) : Str → List Str
  | [] => [[]]
  | c :: t =>
    if c == sep then [] :: splitChar sep t
    else
      match splitChar sep t with
      | [] => [[c]]
      | h :: r => (c :: h) :: r

/-- Character class of the name-validation regex `^[A-Za-z\-'.]+$`. -/
def isNameChar (c : Char) : Bool := isAlphaA c || c == '-' || c == apos || c == '.'

/-- Name check of `_process_booking_details`: at least two whitespace-separated
words, each fully matching `^[A-Za-z\-'.]+$`. -/
def nameValid (name : Str) : Bool :=
  decide (2 ≤ (splitWS name).length) && (splitWS name).all (fun w => w.all isNameChar)

/-- Phone check of `_process_booking_details`: exactly 10 digits after
stripping non-digits (`re.sub(r"\D", "", contact)`). -/
def phoneValid (contact : Str) : Bool := (contact.filter isDigit).length == 10

/-- Rejection message naming exactly the failed check(s). -/
def invalidDetailsMsg (valid_name valid_phone : Bool) : Str :=
  let reasons : List Str :=
    (if valid_name then [] else ["full name looks incomplete".data]) ++
    (if valid_phone then [] else ["phone must be 10 digits".data])
  "Please provide valid details (".data ++ List.intercalate ", ".data reasons ++
  ").\n\nFormat: ".data ++ q "John Smith, 9876543210"

def detailsFormatMsg : Str :=
  "Please provide your full name and 10-digit phone number.\n\nExample: ".data ++
  q "John Smith, 9876543210"

def bookingConfirmedMsg (name service_name : Str) (sd : Service)
    (date_str time_slot staff phone bid : Str) : Str :=
  "Booking Confirmed ✅\n\n".data ++
  "Customer: ".data ++ name ++ "\n".data ++
  "Service: ".data ++ service_name ++ " (".data ++ sd.duration ++ ")\n".data ++
  "Slot: ".data ++ date_str ++ " at ".data ++ time_slot ++ "\n".data ++
  "Staff: ".data ++ staff ++ "\n".data ++
  "Price: ".data ++ sd.price ++ "\n".data ++
  "Contact: ".data ++ phone ++ "\n".data ++
  "Booking ID: ".data ++ bid ++ "\n\n".data ++
  "Thank you for booking with Jusbook!".data

/-- Model of `_process_booking_details`.  The source wraps `book_slot` in
`try/except`; the store operation raises nothing, so the `except` arm is dead
and is not modelled (like the syntactically dead trailing `else` in the
source). -/
def process_booking_details (clock : Clock) (message : Str) (session : Session)
    (store : DataStore) : Option Str × Session × DataStore :=
  let parts := (splitChar ',' message).map stripWS
  if parts.length < 2 then (some detailsFormatMsg, session, store)
  else
    let name := parts.getD 0 []
    let contact := parts.getD 1 []
    let valid_name := nameValid name
    let phone_digits := contact.filter isDigit
    let valid_phone := phoneValid contact
    if !valid_name || !valid_phone then
      (some (invalidDetailsMsg valid_name valid_phone), session, store)
    else
      match session.context.selected_service, session.context.selected_time_slot with
      | some service_name, some time_slot =>
        (match store.services.find? (fun sv => sv.name == service_name) with
        | none => (some "Error: Service not found. Please start over.".data, session, store)
        | some sd =>
          let date_str := clock.today
          let fc := find_or_create_slot service_name date_str time_slot store
          let br := book_slot fc.1.slot_id service_name name phone_digits fc.2
          if br.1.success then
            let bid := (br.1.booking_id).getD []
            let staff := session.context.staff_preference.getD "Any Available Staff".data
            let lb : LastBooking :=
              { name := name, service := service_name, date := date_str, time := time_slot,
                duration := sd.duration, contact := phone_digits, booking_id := bid,
                slot_id := fc.1.slot_id, price := sd.price, staff := staff }
            (some (bookingConfirmedMsg name service_name sd date_str time_slot staff
                    phone_digits bid),
             { session with conversation_state := "booking_complete",
                            context := { session.context with last_booking := some lb } },
             br.2)
          else
            (some ("Sorry, there was an issue with your booking: ".data ++
                   ((br.1.error).getD "Unknown error".data) ++
                   ". Please try again or contact us directly.".data),
             session, br.2))
      | _, _ =>
        (some "Error: Missing booking information. Please start the booking process again.".data,
         session, store)

def bookTriggers : List Str :=
  [ "book".data, "book a slot".data, "book slot".data, "i want to book".data,
    "make a booking".data ]

def anyStaffWords : List Str :=
  [ "any".data, "anyone".data, "no preference".data, "skip".data, "next".data ]

def confirmWords : List Str :=
  [ "confirm".data, "confirm booking".data, "yes".data, "book it".data, "proceed".data ]

def modifyWords : List Str := [ "modify".data, "change".data, "edit".data, "go back".data ]

def cancelWords : List Str := [ "cancel".data, "no".data, "abort".data ]

/-- Model of `_handle_booking`.  The `none` response models the Python branch
that falls through without a `return` (returning `None`): message contains
"slot"/"time" while the state is one of the three listed mid-flow states —
unreachable, since those states are dispatched earlier. -/
def handle_booking (clock : Clock) (message : Str) (session : Session) (store : DataStore) :
    Option Str × Session × DataStore :=
  let cs := session.conversation_state
  let ml := lowerStr (stripWS message)
  if cs = "" ∨ cs = "greeting" ∨ ml ∈ bookTriggers then
    (some (show_service_selection store),
     { session with conversation_state := "selecting_service", context := emptyCtx }, store)
  else if cs = "selecting_service" then
    match match_service_from_text message store.services with
    | some svc =>
      (some show_time_slot_selection,
       { session with conversation_state := "selecting_time_slot",
                      context := { session.context with selected_service := some svc } }, store)
    | none =>
      (some ("I couldn".data ++ [apos] ++
             "t match that to a service. Please select a service from the dropdown or type the service name clearly.".data),
       session, store)
  else if cs = "selecting_time_slot" then
    match match_time_slot_from_text message with
    | some ts =>
      if ts ∈ get_available_time_slots then
        (some show_staff_selection,
         { session with conversation_state := "selecting_staff",
                        context := { session.context with selected_time_slot := some ts } },
         store)
      else
        (some "That slot is unavailable. Please select a valid slot from the dropdown.".data,
         session, store)
    | none => (some "Please select a valid time slot from the dropdown.".data, session, store)
  else if cs = "selecting_staff" then
    let sp := match_staff_from_text message
    if sp.isSome || decide (ml ∈ anyStaffWords) then
      let session' :=
        { session with conversation_state := "showing_details",
                       context := { session.context with
                                    staff_preference := some (sp.getD "Any Available Staff".data) } }
      (some (show_service_details session' store), session', store)
    else
      (some ("Please select a staff preference from the dropdown or say ".data ++ q "any" ++
             " to continue.".data), session, store)
  else if cs = "showing_details" then
    if ml ∈ confirmWords then
      (some ("To complete your booking, please provide:\n\n1. Your full name\n2. Your 10-digit phone number\n\nExample: ".data ++
             q "John Smith, 9876543210"),
       { session with conversation_state := "awaiting_customer_details" }, store)
    else if ml ∈ modifyWords then
      (some (show_service_selection store),
       { session with
          conversation_state := "selecting_service",
          context :=
            { session.context with selected_time_slot := none, staff_preference := none } },
       store)
    else if ml ∈ cancelWords then
      (some "Your booking process has been cancelled. Let me know if you need anything else!".data,
       { session with conversation_state := "greeting", context := emptyCtx }, store)
    else
      (some ("Would you like to confirm this booking? Please respond with ".data ++
             q "Confirm Booking" ++ ", ".data ++ q "Modify" ++ ", or ".data ++ q "Cancel" ++
             ".".data), session, store)
  else if cs = "awaiting_customer_details" then
    process_booking_details clock message session store
  else if subB "change".data ml && subB "service".data ml then
    (some (show_service_selection store),
     { session with conversation_state := "selecting_service", context := emptyCtx }, store)
  else if subB "slot".data ml || subB "time".data ml then
    if cs ∉ (["selecting_time_slot", "selecting_staff", "showing_details"] : List String) then
      (some "Please select a service first to continue.".data, session, store)
    else (none, session, store)
  else
    (some (show_service_selection store),
     { session with conversation_state := "selecting_service", context := emptyCtx }, store)

/-- Model of `_handle_cancel_booking` (extraction only; actual cancellation is
deferred to a human channel by design). -/
def handle_cancel_booking (message : Str) : Str :=
  match extract_booking_id_from_message message with
  | none =>
    "To cancel a booking, please provide your Booking ID. You can find this in your booking confirmation.\n\nExample: ".data ++
    q "Cancel booking BK123456"
  | some bid =>
    "I".data ++ [apos] ++ "d be happy to help you cancel booking ".data ++ bid ++
    ". For security reasons, please contact us directly at our phone number or email to process cancellations. You can find our contact information by asking me for ".data ++
    q "contact info" ++ ".".data

def eventLine (ev : Event) : Str :=
  "🎉 **".data ++ ev.title ++
  "**\n   Date: ".data ++ ev.date ++
  "\n   Time: ".data ++ ev.time ++
  "\n   Description: ".data ++ ev.description ++ "\n".data ++
  (if ev.booking_required then "   📋 Booking required\n".data else []) ++ "\n".data

/-- Model of `_handle_upcoming_events`.  The source defines this method twice;
the later definition wins in Python and is the one modelled here. -/
def handle_upcoming_events (clock : Clock) (store : DataStore) : Str :=
  let events := get_upcoming_events clock.today store
  if events = [] then
    "There are no upcoming special events scheduled at the moment. However, we have regular booking slots available. Would you like to see available slots?".data
  else
    "Here are our upcoming events:\n\n".data ++
    events.foldl (fun acc ev => acc ++ eventLine ev) [] ++
    "Would you like to book a slot for any of these events?".data

/-- Model of `_handle_help`. -/
def handle_help : Str :=
  "I".data ++ [apos] ++ "m here to help you with Jusbook services! Here".data ++ [apos] ++
  "s what I can do:\n\n🔹 **Available Slots** - See what booking times are open\n🔹 **Services** - Learn about our offerings and prices\n🔹 **Book Slot** - Make a new booking\n🔹 **Contact Info** - Get our phone, email, and address\n🔹 **Upcoming Events** - See special events and workshops\n🔹 **General Help** - Get assistance with any questions\n\n**Quick Commands:**\n• \"Show available slots\" or \"What slots are free?\"\n• \"What services do you offer?\"\n• \"Book slot [ID]\" or \"I want to book\"\n• \"Contact information\" or \"How do I reach you?\"\n• \"Upcoming events\"\n\nJust type your question naturally, and I".data ++
  [apos] ++ "ll do my best to help!".data

/-- Model of `_handle_fallback`. -/
def handle_fallback (message : Str) : Str :=
  let ml := lowerStr message
  if anySub ["price".data, "cost".data, "fee".data, "charge".data] ml then
    "For pricing information, please ask about our services by saying ".data ++
    q "What services do you offer?" ++ " I".data ++ [apos] ++
    "ll show you all services with their prices.".data
  else if anySub ["location".data, "address".data, "where".data] ml then
    "For our location and address, please ask for ".data ++ q "contact information" ++
    " and I".data ++ [apos] ++ "ll provide all our details.".data
  else if anySub ["time".data, "hours".data, "open".data, "close".data] ml then
    "For our business hours, please ask for ".data ++ q "contact information" ++
    " and I".data ++ [apos] ++ "ll show you when we".data ++ [apos] ++ "re open.".data
  else
    "I".data ++ [apos] ++
    "m not sure I understand. I can help you with:\n• Available booking slots\n• Services and pricing\n• Making bookings\n• Contact information\n• Upcoming events\n\nTry asking ".data ++
    q "What can you help me with?" ++ " for more detailed options.".data

/-- Outcome of a Python call: a value, or an uncaught exception. -/
inductive PyRes (α : Type) where
  | ok (a : α)
  | exn
deriving DecidableEq, Repr

def midFlowStates : List String :=
  [ "selecting_service", "selecting_time_slot", "selecting_staff", "showing_details",
    "awaiting_customer_details" ]

/-- Model of `_generate_response`.  The `slot_broadcast` arm calls
`get_available_slots(limit=5)`, but `get_available_slots` accepts no `limit`
keyword, so that arm raises `TypeError` (`PyRes.exn`). -/
def generate_response (clock : Clock) (intent : String) (message : Str) (session : Session)
    (store : DataStore) : PyRes (Option Str × Session × DataStore) :=
  if session.conversation_state ∈ midFlowStates then
    .ok (handle_booking clock message session store)
  else if intent = "greeting" then .ok (some handle_greeting, session, store)
  else if intent = "available_slots" then
    .ok (some (handle_available_slots clock message store), session, store)
  else if intent = "services" then .ok (some (handle_services store), session, store)
  else if intent = "contact_info" then .ok (some (handle_contact_info store), session, store)
  else if intent = "book_slot" then .ok (handle_booking clock message session store)
  else if intent = "upcoming_events" then
    .ok (some (handle_upcoming_events clock store), session, store)
  else if intent = "cancel_booking" then .ok (some (handle_cancel_booking message), session, store)
  else if intent = "slot_broadcast" then .exn
  else if intent = "help" then .ok (some handle_help, session, store)
  else .ok (some (handle_fallback message), session, store)

/-- The chatbot object: shared store plus the session map. -/
structure ChatBot where
  store : DataStore
  sessions : List (String × Session)
deriving DecidableEq, Repr

/-- Model of `JusbookChatbot.process_message`.  On an uncaught exception the
session map keeps the (possibly just-created) session, the store is
unchanged, and no result is returned to the caller. -/
def process_message (clock : Clock) (bot : ChatBot) (message : Str) (session_id : String) :
    ChatBot × Option (Option Str × String × ℚ) :=
  let sessions1 :=
    if bot.sessions.any (fun e => e.1 == session_id) then bot.sessions
    else bot.sessions ++ [(session_id, freshSession)]
  let session := ((sessions1.find? (fun e => e.1 == session_id)).map Prod.snd).getD freshSession
  let pm := preprocess_text message
  let ic := classify_intent pm
  match generate_response clock ic.1 pm session bot.store with
  | .exn => ({ store := bot.store, sessions := sessions1 }, none)
  | .ok r =>
    let session2 := { r.2.1 with last_intent := some ic.1 }
    ({ store := r.2.2, sessions := dictSet sessions1 session_id session2 },
     some (r.1, ic.1, ic.2))

/-- Fold of `process_message` over a list of (message, session id) pairs. -/
def runMessages (clock : Clock) (bot : ChatBot) : List (Str × String) → ChatBot
  | [] => bot
  | (m, sid) :: rest => runMessages clock (process_message clock bot m sid).1 rest

/-- The seven conversation states ever assigned by the engine. -/
def validStates : List String :=
  [ "greeting", "selecting_service", "selecting_time_slot", "selecting_staff",
    "showing_details", "awaiting_customer_details", "booking_complete" ]

/-! ## Basic lemmas about the string primitives -/

theorem charOfNat_toNat {n : Nat} (h : n < 55296) : (Char.ofNat n).toNat = n := by
  have hv : n.isValidChar := Or.inl h
  simp only [Char.ofNat, Char.ofNatAux, Char.toNat, hv, dite_true, reduceDIte]
  rfl

theorem pfxB_iff {p s : Str} : pfxB p s = true ↔ p <+: s := by
  induction p generalizing s with
  | nil => simp [pfxB]
  | cons a p ih =>
    cases s with
    | nil => simp [pfxB]
    | cons b t => simp [pfxB, ih, List.cons_prefix_cons, and_comm]

theorem subB_iff {p s : Str} : subB p s = true ↔ p <:+: s := by
  induction s with
  | nil =>
    simp [subB, pfxB_iff]
  | cons c t ih => simp [subB, pfxB_iff, ih, List.infix_cons_iff]

/-! ## Concrete fixtures used by witnesses and counterexamples -/

def sampleSlotA : Slot :=
  { slot_id := "SL101200".data, date := "2026-10-12".data, day := "Monday".data,
    time := "10:00 AM".data, service := "Hair Wash".data, duration := "30 minutes".data,
    available := true, price := "₹300".data }

def sampleSlotB : Slot :=
  { slot_id := "SL101301".data, date := "2026-10-13".data, day := "Tuesday".data,
    time := "11:00 AM".data, service := "Beard Trim".data, duration := "25 minutes".data,
    available := true, price := "₹250".data }

/-- A possible output of `DataStore.__init__` (fresh store). -/
def sampleFreshStore : DataStore :=
  { services := defaultServices, slots := [sampleSlotA, sampleSlotB], bookings := [],
    events := [], contact_info := defaultContactInfo, nextId := 0 }

def sampleClock : Clock :=
  { today := "2026-10-12".data, tomorrow := "2026-10-13".data, nextWeek := "2026-10-19".data }

/-- The sample store after its first slot has been booked out. -/
def bookedStore : DataStore :=
  { sampleFreshStore with
    slots := [{ sampleSlotA with available := false }, sampleSlotB] }

/-! ## C7: booking an unavailable or unknown slot fails and changes nothing -/

/-- Claim C7: if every slot carrying the requested ID is unavailable (in
particular if no slot carries it), `book_slot` fails with the explanatory
error and returns the store unchanged — bookings map and slots untouched, so
no second booking is ever created for that slot. -/
theorem book_slot_unavailable_fails (s : DataStore) (sid service name contact : Str)
    (h : ∀ sl ∈ s.slots, sl.slot_id = sid → sl.available = false) :
    (book_slot sid service name contact s).1.success = false ∧
    (book_slot sid service name contact s).1.error =
      some "Slot not found or not available".data ∧
    (book_slot sid service name contact s).2 = s := by
  have hf : get_slot_by_id sid s = none := by
    unfold get_slot_by_id
    apply List.find?_eq_none.mpr
    intro sl hsl
    simp only [Bool.and_eq_true, beq_iff_eq, not_and]
    intro h1
    simp [h sl hsl h1]
  unfold book_slot
  rw [hf]
  exact ⟨rfl, rfl, rfl⟩

/-- Witness for C7 at a concrete already-booked slot ID. -/
theorem book_slot_unavailable_fails_w :
    (∀ sl ∈ bookedStore.slots, sl.slot_id = "SL101200".data → sl.available = false) ∧
    (book_slot "SL101200".data "Hair Wash".data "jane doe".data "9876543210".data
        bookedStore).1.success = false ∧
    (book_slot "SL101200".data "Hair Wash".data "jane doe".data "9876543210".data
        bookedStore).2 = bookedStore :=
  ⟨by decide, (book_slot_unavailable_fails bookedStore _ _ _ _ (by decide)).1,
   (book_slot_unavailable_fails bookedStore _ _ _ _ (by decide)).2.2⟩

/-! ## C3: mid-flow sessions are always routed to the booking handler -/

def sampleMidSession : Session :=
  { context := emptyCtx, last_intent := none, conversation_state := "selecting_service" }

/-- Claim C3: whenever the session is in one of the five mid-booking-flow
states, `_generate_response` returns exactly the booking handler's result, for
every message and every classified intent (in particular `contact_info`). -/
theorem generate_response_midflow (clock : Clock) (intent : String) (message : Str)
    (session : Session) (store : DataStore)
    (h : session.conversation_state ∈ midFlowStates) :
    generate_response clock intent message session store =
      PyRes.ok (handle_booking clock message session store) := by
  unfold generate_response
  rw [if_pos h]

/-- Witness for C3: a `contact_info`-classified message in state
`selecting_service` is answered by the booking handler. -/
theorem generate_response_midflow_w :
    sampleMidSession.conversation_state ∈ midFlowStates ∧
    generate_response sampleClock "contact_info" "contact info".data sampleMidSession
        sampleFreshStore =
      PyRes.ok (handle_booking sampleClock "contact info".data sampleMidSession
        sampleFreshStore) :=
  ⟨by decide,
   generate_response_midflow sampleClock "contact_info" "contact info".data sampleMidSession
     sampleFreshStore (by decide)⟩

/-! ## Commutation of lowercasing with whitespace stripping -/

theorem isWS_lcChar (c : Char) : isWS (lcChar c) = isWS c := by
  unfold lcChar
  split
  · rename_i h
    unfold isUpperA at h
    simp only [Bool.and_eq_true, decide_eq_true_eq] at h
    have ht : (Char.ofNat (c.toNat + 32)).toNat = c.toNat + 32 := charOfNat_toNat (by omega)
    have h1 : isWS (Char.ofNat (c.toNat + 32)) = false := by
      simp only [isWS, ht, Bool.or_eq_false_iff, beq_eq_false_iff_ne, ne_eq]
      omega
    have h2 : isWS c = false := by
      simp only [isWS, Bool.or_eq_false_iff, beq_eq_false_iff_ne, ne_eq]
      omega
    rw [h1, h2]
  · rfl

theorem stripL_lowerStr (s : Str) : stripL (lowerStr s) = lowerStr (stripL s) := by
  unfold stripL lowerStr
  rw [List.dropWhile_map]
  have hfun : (isWS ∘ lcChar) = isWS := by
    funext c
    simp [Function.comp, isWS_lcChar]
  rw [hfun]

theorem stripR_lowerStr (s : Str) : stripR (lowerStr s) = lowerStr (stripR s) := by
  unfold stripR lowerStr
  have hfun : (isWS ∘ lcChar) = isWS := by
    funext c
    simp [Function.comp, isWS_lcChar]
  rw [← List.map_reverse, List.dropWhile_map, hfun, List.map_reverse]

theorem stripWS_lowerStr (s : Str) : stripWS (lowerStr s) = lowerStr (stripWS s) := by
  unfold stripWS
  rw [stripL_lowerStr, stripR_lowerStr]

/-! ## C5: time-slot selection and the unreachable rejection branch -/

theorem tryTimePattern_mem {r : Option (Nat × Str × Option Str)} {t : Str}
    (h : tryTimePattern r = some t) : t ∈ get_available_time_slots := by
  unfold tryTimePattern at h
  cases r with
  | none => exact Option.noConfusion h
  | some x =>
    simp only at h
    split at h
    · rename_i hin
      cases h
      exact hin
    · exact Option.noConfusion h

theorem match_time_slot_mem {text t : Str} (h : match_time_slot_from_text text = some t) :
    t ∈ get_available_time_slots := by
  simp only [match_time_slot_from_text] at h
  split at h
  · rename_i sl heq
    cases h
    exact List.mem_of_find?_eq_some heq
  · split at h
    · rename_i sl heq
      cases h
      exact List.mem_of_find?_eq_some heq
    · simp only [Option.orElse] at h
      split at h
      · rename_i heq
        cases h
        exact tryTimePattern_mem heq
      · split at h
        · rename_i heq
          cases h
          exact tryTimePattern_mem heq
        · exact tryTimePattern_mem h

theorem match_time_none_of_trigger {message : Str}
    (h : lowerStr (stripWS message) ∈ bookTriggers) :
    match_time_slot_from_text message = none := by
  simp only [match_time_slot_from_text, stripWS_lowerStr]
  simp only [bookTriggers, List.mem_cons, List.not_mem_nil, or_false] at h
  rcases h with h | h | h | h | h <;> rw [h] <;> decide

/-- Claim C5 (amended): in state `selecting_time_slot`, a message that matches
a time slot is always accepted — the state becomes `selecting_staff` and the
matched slot is stored — regardless of the availability of the store's slots,
because the matcher only ever returns members of the static
`get_available_time_slots` list, making the rejection branch unreachable. -/
theorem selecting_time_slot_accepts (clock : Clock) (message : Str) (session : Session)
    (store : DataStore) (t : Str)
    (hstate : session.conversation_state = "selecting_time_slot")
    (hmatch : match_time_slot_from_text message = some t) :
    t ∈ get_available_time_slots ∧
    handle_booking clock message session store =
      (some show_staff_selection,
       { session with conversation_state := "selecting_staff",
                      context := { session.context with selected_time_slot := some t } },
       store) := by
  have hmem := match_time_slot_mem hmatch
  refine ⟨hmem, ?_⟩
  have hnt : lowerStr (stripWS message) ∉ bookTriggers := by
    intro hc
    rw [match_time_none_of_trigger hc] at hmatch
    exact Option.noConfusion hmatch
  have h1 : ¬((session.conversation_state = "" ∨ session.conversation_state = "greeting" ∨
      lowerStr (stripWS message) ∈ bookTriggers)) := by
    rw [hstate]
    push_neg
    exact ⟨by decide, by decide, hnt⟩
  simp only [handle_booking, hstate]
  rw [hstate] at h1
  rw [if_neg h1, if_neg (by decide), if_pos trivial, hmatch]
  simp only [if_pos hmem]

/-- A client session sitting at the time-slot selection step. -/
def sampleTimeSession : Session :=
  { context := { emptyCtx with selected_service := some "Hair Wash".data },
    last_intent := none, conversation_state := "selecting_time_slot" }

/-- A store with no slots at all (so no slot is actually available). -/
def emptySlotStore : DataStore :=
  { services := defaultServices, slots := [], bookings := [], events := [],
    contact_info := defaultContactInfo, nextId := 0 }

/-- Counterexample to claim C5 as stated: the store has no available slot at
all (in particular none at 10:00 AM), yet the engine accepts the selection —
the state advances to `selecting_staff` and the slot is stored in the context,
instead of rejecting and staying in `selecting_time_slot`. -/
theorem selecting_time_slot_claim_cex :
    emptySlotStore.slots = [] ∧
    match_time_slot_from_text "10:00 am".data = some "10:00 AM".data ∧
    (handle_booking sampleClock "10:00 am".data sampleTimeSession
        emptySlotStore).2.1.conversation_state = "selecting_staff" ∧
    (handle_booking sampleClock "10:00 am".data sampleTimeSession
        emptySlotStore).2.1.context.selected_time_slot = some "10:00 AM".data := by
  decide

/-! ## C6: invalid customer details are rejected, naming the failed checks -/

theorem mem_dropWhile_of_not_ws {c : Char} {s : Str} (hc : isWS c = false) (h : c ∈ s) :
    c ∈ s.dropWhile isWS := by
  have hsplit : s.takeWhile isWS ++ s.dropWhile isWS = s :=
    List.takeWhile_append_dropWhile isWS s
  rw [← hsplit] at h
  rcases List.mem_append.mp h with h1 | h2
  · exact absurd (List.mem_takeWhile_imp h1) (by simp [hc])
  · exact h2

theorem mem_stripWS_of_not_ws {c : Char} {s : Str} (hc : isWS c = false) (h : c ∈ s) :
    c ∈ stripWS s := by
  unfold stripWS stripR stripL
  rw [List.mem_reverse]
  apply mem_dropWhile_of_not_ws hc
  rw [List.mem_reverse]
  exact mem_dropWhile_of_not_ws hc h

theorem comma_not_trigger {message : Str} (h : (',' : Char) ∈ message) :
    lowerStr (stripWS message) ∉ bookTriggers := by
  intro hmem
  have h1 : (',' : Char) ∈ stripWS message := mem_stripWS_of_not_ws (by decide) h
  have h2 : (',' : Char) ∈ lowerStr (stripWS message) := by
    have h3 := List.mem_map_of_mem lcChar h1
    have h4 : lcChar ',' = ',' := by decide
    rw [h4] at h3
    exact h3
  simp only [bookTriggers, List.mem_cons, List.not_mem_nil, or_false] at hmem
  rcases hmem with h3 | h3 | h3 | h3 | h3 <;> rw [h3] at h2 <;> exact absurd h2 (by decide)

theorem splitChar_ne_nil (sep : Char) (s : Str) : splitChar sep s ≠ [] := by
  cases s with
  | nil => simp [splitChar]
  | cons c t =>
    simp only [splitChar]
    split
    · simp
    · split <;> simp

theorem two_le_splitChar_of_mem {s : Str} (h : (',' : Char) ∈ s) :
    2 ≤ (splitChar ',' s).length := by
  induction s with
  | nil => cases h
  | cons c t ih =>
    by_cases hc : c = ','
    · have hlen : 1 ≤ (splitChar ',' t).length :=
        List.length_pos.mpr (splitChar_ne_nil ',' t)
      have hb : (c == ',') = true := by simpa using hc
      simp only [splitChar, hb, if_true]
      simp only [List.length_cons]
      omega
    · have hmem : (',' : Char) ∈ t := by
        rcases List.mem_cons.mp h with h1 | h1
        · exact absurd h1.symm hc
        · exact h1
      have h2 := ih hmem
      have hb : (c == ',') = false := by simpa using hc
      simp only [splitChar, hb, Bool.false_eq_true, if_false]
      cases hsp : splitChar ',' t with
      | nil => exact absurd hsp (splitChar_ne_nil ',' t)
      | cons hh rr =>
        rw [hsp] at h2
        exact h2

/-- Claim C6: in state `awaiting_customer_details`, a comma-containing message
whose name part or phone part fails validation is answered with the message
naming exactly the failed check(s), while the session (hence the conversation
state) and the store (hence the bookings) are left unchanged. -/
theorem awaiting_details_invalid_rejected (clock : Clock) (message : Str) (session : Session)
    (store : DataStore)
    (hstate : session.conversation_state = "awaiting_customer_details")
    (hcomma : (',' : Char) ∈ message)
    (hbad : (nameValid (((splitChar ',' message).map stripWS).getD 0 []) &&
             phoneValid (((splitChar ',' message).map stripWS).getD 1 [])) = false) :
    handle_booking clock message session store =
      (some (invalidDetailsMsg
              (nameValid (((splitChar ',' message).map stripWS).getD 0 []))
              (phoneValid (((splitChar ',' message).map stripWS).getD 1 []))),
       session, store) := by
  have hnt := comma_not_trigger hcomma
  have h1 : ¬(session.conversation_state = "" ∨ session.conversation_state = "greeting" ∨
      lowerStr (stripWS message) ∈ bookTriggers) := by
    rw [hstate]
    push_neg
    exact ⟨by decide, by decide, hnt⟩
  simp only [handle_booking, hstate]
  rw [hstate] at h1
  rw [if_neg h1]
  rw [if_neg (by decide), if_neg (by decide), if_neg (by decide), if_neg (by decide),
    if_pos trivial]
  simp only [process_booking_details]
  have hlen : ¬((List.map stripWS (splitChar ',' message)).length < 2) := by
    rw [List.length_map]
    have := two_le_splitChar_of_mem hcomma
    omega
  rw [if_neg hlen]
  have hcond : (!nameValid ((List.map stripWS (splitChar ',' message)).getD 0 []) ||
      !phoneValid ((List.map stripWS (splitChar ',' message)).getD 1 [])) = true := by
    rw [← Bool.not_and, hbad]
    rfl
  rw [if_pos hcond]

def sampleAwaitCtx : Ctx :=
  { emptyCtx with
    selected_service := some "Hair Wash".data, selected_time_slot := some "10:00 AM".data }

def sampleAwaitSession : Session :=
  { context := sampleAwaitCtx, last_intent := none,
    conversation_state := "awaiting_customer_details" }

/-- Witness for C6 at the spec's example `"j, 12345"` (single-token name,
5-digit phone): both checks fail and nothing advances. -/
theorem awaiting_details_invalid_rejected_w :
    sampleAwaitSession.conversation_state = "awaiting_customer_details" ∧
    (',' : Char) ∈ "j, 12345".data ∧
    nameValid (((splitChar ',' "j, 12345".data).map stripWS).getD 0 []) = false ∧
    phoneValid (((splitChar ',' "j, 12345".data).map stripWS).getD 1 []) = false ∧
    handle_booking sampleClock "j, 12345".data sampleAwaitSession sampleFreshStore =
      (some (invalidDetailsMsg
              (nameValid (((splitChar ',' "j, 12345".data).map stripWS).getD 0 []))
              (phoneValid (((splitChar ',' "j, 12345".data).map stripWS).getD 1 []))),
       sampleAwaitSession, sampleFreshStore) :=
  ⟨by decide, by decide, by decide, by decide,
   awaiting_details_invalid_rejected sampleClock "j, 12345".data sampleAwaitSession
     sampleFreshStore (by decide) (by decide) (by decide)⟩

/-- Witness for C5 (amended): the time-slot message `"10:00 am"` is accepted in
state `selecting_time_slot` even over a store with no slots at all. -/
theorem selecting_time_slot_accepts_w :
    sampleTimeSession.conversation_state = "selecting_time_slot" ∧
    match_time_slot_from_text "10:00 am".data = some "10:00 AM".data ∧
    "10:00 AM".data ∈ get_available_time_slots ∧
    handle_booking sampleClock "10:00 am".data sampleTimeSession emptySlotStore =
      (some show_staff_selection,
       { sampleTimeSession with
          conversation_state := "selecting_staff",
          context := { sampleTimeSession.context with
                       selected_time_slot := some "10:00 AM".data } },
       emptySlotStore) :=
  ⟨by decide, by decide,
   (selecting_time_slot_accepts sampleClock "10:00 am".data sampleTimeSession emptySlotStore
     "10:00 AM".data (by decide) (by decide)).1,
   (selecting_time_slot_accepts sampleClock "10:00 am".data sampleTimeSession emptySlotStore
     "10:00 AM".data (by decide) (by decide)).2⟩

theorem process_booking_details_state (clock : Clock) (message : Str) (session : Session)
    (store : DataStore) :
    (process_booking_details clock message session store).2.1.conversation_state ∈ validStates ∨
    (process_booking_details clock message session store).2.1.conversation_state =
      session.conversation_state := by
  simp only [process_booking_details]
  repeat' split
  all_goals first | (right; rfl) | (left; simp [validStates])

theorem handle_booking_state (clock : Clock) (message : Str) (session : Session)
    (store : DataStore) :
    (handle_booking clock message session store).2.1.conversation_state ∈ validStates ∨
    (handle_booking clock message session store).2.1.conversation_state =
      session.conversation_state := by
  simp only [handle_booking]
  by_cases h1 : session.conversation_state = "" ∨ session.conversation_state = "greeting" ∨
      lowerStr (stripWS message) ∈ bookTriggers
  · rw [if_pos h1]
    exact Or.inl (show ("selecting_service" : String) ∈ validStates by decide)
  rw [if_neg h1]
  by_cases h2 : session.conversation_state = "selecting_service"
  · rw [if_pos h2]
    split
    · exact Or.inl (show ("selecting_time_slot" : String) ∈ validStates by decide)
    · exact Or.inr rfl
  rw [if_neg h2]
  by_cases h3 : session.conversation_state = "selecting_time_slot"
  · rw [if_pos h3]
    split
    · split
      · exact Or.inl (show ("selecting_staff" : String) ∈ validStates by decide)
      · exact Or.inr rfl
    · exact Or.inr rfl
  rw [if_neg h3]
  by_cases h4 : session.conversation_state = "selecting_staff"
  · rw [if_pos h4]
    by_cases hsp : ((match_staff_from_text message).isSome ||
        decide (lowerStr (stripWS message) ∈ anyStaffWords)) = true
    · rw [if_pos hsp]
      exact Or.inl (show ("showing_details" : String) ∈ validStates by decide)
    · rw [if_neg hsp]
      exact Or.inr rfl
  rw [if_neg h4]
  by_cases h5 : session.conversation_state = "showing_details"
  · rw [if_pos h5]
    by_cases hc1 : lowerStr (stripWS message) ∈ confirmWords
    · rw [if_pos hc1]
      exact Or.inl (show ("awaiting_customer_details" : String) ∈ validStates by decide)
    rw [if_neg hc1]
    by_cases hc2 : lowerStr (stripWS message) ∈ modifyWords
    · rw [if_pos hc2]
      exact Or.inl (show ("selecting_service" : String) ∈ validStates by decide)
    rw [if_neg hc2]
    by_cases hc3 : lowerStr (stripWS message) ∈ cancelWords
    · rw [if_pos hc3]
      exact Or.inl (show ("greeting" : String) ∈ validStates by decide)
    · rw [if_neg hc3]
      exact Or.inr rfl
  rw [if_neg h5]
  by_cases h6 : session.conversation_state = "awaiting_customer_details"
  · rw [if_pos h6]
    exact process_booking_details_state clock message session store
  rw [if_neg h6]
  by_cases h7 : (subB "change".data (lowerStr (stripWS message)) &&
      subB "service".data (lowerStr (stripWS message))) = true
  · rw [if_pos h7]
    exact Or.inl (show ("selecting_service" : String) ∈ validStates by decide)
  rw [if_neg h7]
  by_cases h8 : (subB "slot".data (lowerStr (stripWS message)) ||
      subB "time".data (lowerStr (stripWS message))) = true
  · rw [if_pos h8]
    by_cases h9 : session.conversation_state ∉
        (["selecting_time_slot", "selecting_staff", "showing_details"] : List String)
    · rw [if_pos h9]
      exact Or.inr rfl
    · rw [if_neg h9]
      exact Or.inr rfl
  · rw [if_neg h8]
    exact Or.inl (show ("selecting_service" : String) ∈ validStates by decide)

def sessionsValid (sessions : List (String × Session)) : Prop :=
  ∀ e ∈ sessions, e.2.conversation_state ∈ validStates

theorem mem_dictSet {κ α : Type} [BEq κ] {m : List (κ × α)} {k : κ} {v : α} {e : κ × α}
    (h : e ∈ dictSet m k v) : e ∈ m ∨ e = (k, v) := by
  unfold dictSet at h
  split at h
  · rcases List.mem_map.mp h with ⟨x, hx, hxe⟩
    by_cases hxk : (x.1 == k) = true
    · rw [if_pos hxk] at hxe
      right
      exact hxe.symm
    · rw [if_neg hxk] at hxe
      left
      rw [← hxe]
      exact hx
  · rcases List.mem_append.mp h with h1 | h1
    · left; exact h1
    · right; simpa using h1

theorem dictSet_keeps {κ α : Type} [BEq κ] [LawfulBEq κ] {m : List (κ × α)} (k : κ) (v : α)
    {e : κ × α} (he : e ∈ m) : ∃ x ∈ dictSet m k v, x.1 = e.1 := by
  unfold dictSet
  split
  · refine ⟨if e.1 == k then (k, v) else e, List.mem_map_of_mem _ he, ?_⟩
    by_cases hb : (e.1 == k) = true
    · rw [if_pos hb]
      exact (eq_of_beq hb).symm
    · rw [if_neg hb]
  · exact ⟨e, List.mem_append_left _ he, rfl⟩

theorem generate_response_state (clock : Clock) (intent : String) (message : Str)
    (session : Session) (store : DataStore) {r : Option Str × Session × DataStore}
    (h : generate_response clock intent message session store = PyRes.ok r) :
    r.2.1.conversation_state ∈ validStates ∨
    r.2.1.conversation_state = session.conversation_state := by
  unfold generate_response at h
  by_cases h0 : session.conversation_state ∈ midFlowStates
  · rw [if_pos h0, PyRes.ok.injEq] at h
    subst h
    exact handle_booking_state clock message session store
  rw [if_neg h0] at h
  by_cases h1 : intent = "greeting"
  · rw [if_pos h1, PyRes.ok.injEq] at h; subst h; exact Or.inr rfl
  rw [if_neg h1] at h
  by_cases h2 : intent = "available_slots"
  · rw [if_pos h2, PyRes.ok.injEq] at h; subst h; exact Or.inr rfl
  rw [if_neg h2] at h
  by_cases h3 : intent = "services"
  · rw [if_pos h3, PyRes.ok.injEq] at h; subst h; exact Or.inr rfl
  rw [if_neg h3] at h
  by_cases h4 : intent = "contact_info"
  · rw [if_pos h4, PyRes.ok.injEq] at h; subst h; exact Or.inr rfl
  rw [if_neg h4] at h
  by_cases h5 : intent = "book_slot"
  · rw [if_pos h5, PyRes.ok.injEq] at h
    subst h
    exact handle_booking_state clock message session store
  rw [if_neg h5] at h
  by_cases h6 : intent = "upcoming_events"
  · rw [if_pos h6, PyRes.ok.injEq] at h; subst h; exact Or.inr rfl
  rw [if_neg h6] at h
  by_cases h7 : intent = "cancel_booking"
  · rw [if_pos h7, PyRes.ok.injEq] at h; subst h; exact Or.inr rfl
  rw [if_neg h7] at h
  by_cases h8 : intent = "slot_broadcast"
  · rw [if_pos h8] at h
    exact absurd h (by simp)
  rw [if_neg h8] at h
  by_cases h9 : intent = "help"
  · rw [if_pos h9, PyRes.ok.injEq] at h; subst h; exact Or.inr rfl
  · rw [if_neg h9, PyRes.ok.injEq] at h; subst h; exact Or.inr rfl

theorem process_message_sessions_valid (clock : Clock) (bot : ChatBot) (message : Str)
    (sid : String) (h : sessionsValid bot.sessions) :
    sessionsValid (process_message clock bot message sid).1.sessions := by
  simp only [process_message]
  have hval1 : sessionsValid
      (if bot.sessions.any (fun e => e.1 == sid) then bot.sessions
       else bot.sessions ++ [(sid, freshSession)]) := by
    split
    · exact h
    · intro e he
      rcases List.mem_append.mp he with h1 | h1
      · exact h e h1
      · have h2 : e = (sid, freshSession) := by simpa using h1
        rw [h2]
        exact (show ("greeting" : String) ∈ validStates by decide)
  have hvalsess : ((((if bot.sessions.any (fun e => e.1 == sid) then bot.sessions
       else bot.sessions ++ [(sid, freshSession)]).find?
        (fun e => e.1 == sid)).map Prod.snd).getD freshSession).conversation_state
      ∈ validStates := by
    cases hf : (if bot.sessions.any (fun e => e.1 == sid) then bot.sessions
       else bot.sessions ++ [(sid, freshSession)]).find? (fun e => e.1 == sid) with
    | none => exact (show ("greeting" : String) ∈ validStates by decide)
    | some e => exact hval1 e (List.mem_of_find?_eq_some hf)
  split
  · exact hval1
  · rename_i r heq
    intro e he
    rcases mem_dictSet he with h1 | h1
    · exact hval1 e h1
    · rw [h1]
      rcases generate_response_state clock _ _ _ _ heq with h2 | h2
      · exact h2
      · rw [h2]
        exact hvalsess

theorem process_message_keeps (clock : Clock) (bot : ChatBot) (message : Str) (sid : String)
    (k : String) (h : ∃ e ∈ bot.sessions, e.1 = k) :
    ∃ e ∈ (process_message clock bot message sid).1.sessions, e.1 = k := by
  simp only [process_message]
  obtain ⟨e, he, hek⟩ := h
  have he1 : e ∈ (if bot.sessions.any (fun x => x.1 == sid) then bot.sessions
      else bot.sessions ++ [(sid, freshSession)]) := by
    split
    · exact he
    · exact List.mem_append_left _ he
  split
  · exact ⟨e, he1, hek⟩
  · obtain ⟨x, hx, hxe⟩ := dictSet_keeps sid _ he1
    exact ⟨x, hx, hxe.trans hek⟩

/-- Claim C10: starting from a fresh chatbot, after any sequence of
`process_message` calls every stored session's `conversation_state` is one of
the seven states, and a single `process_message` call never removes a session
key from the map. -/
theorem session_states_invariant :
    (∀ (clock : Clock) (store : DataStore) (msgs : List (Str × String)),
       sessionsValid (runMessages clock { store := store, sessions := [] } msgs).sessions) ∧
    (∀ (clock : Clock) (bot : ChatBot) (message : Str) (sid k : String),
       (∃ e ∈ bot.sessions, e.1 = k) →
       ∃ e ∈ (process_message clock bot message sid).1.sessions, e.1 = k) := by
  constructor
  · intro clock store msgs
    have haux : ∀ bot : ChatBot, sessionsValid bot.sessions →
        sessionsValid (runMessages clock bot msgs).sessions := by
      induction msgs with
      | nil => intro bot h; exact h
      | cons p rest ih =>
        intro bot h
        obtain ⟨m, sid⟩ := p
        exact ih _ (process_message_sessions_valid clock bot m sid h)
    exact haux _ (by intro e he; exact absurd he (List.not_mem_nil e))
  · intro clock bot message sid k h
    exact process_message_keeps clock bot message sid k h

def sampleBot1 : ChatBot := { store := sampleFreshStore, sessions := [("s1", freshSession)] }

/-- Witness for C10 at a concrete run and a concrete pre-existing session. -/
theorem session_states_invariant_w :
    sessionsValid (runMessages sampleClock { store := sampleFreshStore, sessions := [] }
      [("hello".data, "s1")]).sessions ∧
    (∃ e ∈ sampleBot1.sessions, e.1 = "s1") ∧
    ∃ e ∈ (process_message sampleClock sampleBot1 "book".data "s1").1.sessions, e.1 = "s1" :=
  ⟨session_states_invariant.1 sampleClock sampleFreshStore [("hello".data, "s1")],
   ⟨("s1", freshSession), by decide, rfl⟩,
   session_states_invariant.2 sampleClock sampleBot1 "book".data "s1" "s1"
     ⟨("s1", freshSession), by decide, rfl⟩⟩

/-! ## C1: the slot/booking invariant of the store -/

/-- A client-visible mutation of the booking store. -/
inductive StoreOp where
  | book (slot_id service customer_name contact : Str)
  | cancel (booking_id : Str)
deriving DecidableEq, Repr

def applyOp (s : DataStore) : StoreOp → DataStore
  | .book sid svc nm ct => (book_slot sid svc nm ct s).2
  | .cancel bid => (cancel_booking bid s).2

def runOps (s : DataStore) : List StoreOp → DataStore
  | [] => s
  | op :: rest => runOps (applyOp s op) rest

/-- The confirmed bookings referencing a given slot ID. -/
def confirmedFor (s : DataStore) (sid : Str) : List Booking :=
  (s.bookings.map Prod.snd).filter (fun b => b.status == "confirmed" && b.slot_id == sid)

/-- The invariant claimed in the spec: every unavailable slot has exactly one
confirmed booking referencing its slot ID. -/
def slotBookingInv (s : DataStore) : Prop :=
  ∀ sl ∈ s.slots, sl.available = false → (confirmedFor s sl.slot_id).length = 1

instance (s : DataStore) : Decidable (slotBookingInv s) := by
  unfold slotBookingInv; infer_instance

/-- A call sequence that never cancels an already-cancelled booking (cancels of
unknown booking IDs are harmless failures and stay allowed). -/
def goodOpsB (s : DataStore) : List StoreOp → Bool
  | [] => true
  | op :: rest =>
    (match op with
     | .cancel bid =>
       match get_booking bid s with
       | some b => b.status == "confirmed"
       | none => true
     | _ => true) && goodOpsB (applyOp s op) rest

/-- Slot IDs are pairwise distinct. -/
def uniqueSlotIds (s : DataStore) : Prop := (s.slots.map Slot.slot_id).Nodup

/-- Well-formedness of the bookings table: keys match booking IDs, keys are
distinct, every key comes from an already-consumed position of the ID stream,
and every booking references an existing slot. -/
def bookingsWF (s : DataStore) : Prop :=
  (∀ e ∈ s.bookings, e.1 = e.2.booking_id) ∧
  (s.bookings.map Prod.fst).Nodup ∧
  (∀ e ∈ s.bookings, ∃ m < s.nextId, e.1 = mkBookingId m) ∧
  (∀ e ∈ s.bookings, ∃ sl ∈ s.slots, sl.slot_id = e.2.slot_id)

/-- Every confirmed booking references an existing, unavailable slot. -/
def confirmedOK (s : DataStore) : Prop :=
  ∀ e ∈ s.bookings, e.2.status = "confirmed" →
    ∃ sl ∈ s.slots, sl.slot_id = e.2.slot_id ∧ sl.available = false

/-- The inductive invariant carried through `book_slot` / `cancel_booking`. -/
def StInv (s : DataStore) : Prop :=
  uniqueSlotIds s ∧ bookingsWF s ∧ confirmedOK s ∧ slotBookingInv s

/-- Value recovered from a decimal digit string. -/
def decVal (s : Str) : Nat := s.foldl (fun acc c => 10 * acc + (c.toNat - 48)) 0

theorem decVal_append_digit (xs : Str) (c : Char) :
    decVal (xs ++ [c]) = 10 * decVal xs + (c.toNat - 48) := by
  unfold decVal
  rw [List.foldl_append]
  rfl

theorem decVal_decCharsAux : ∀ fuel n, n < fuel → decVal (decCharsAux fuel n) = n := by
  intro fuel
  induction fuel with
  | zero => intro n h; omega
  | succ fuel ih =>
    intro n h
    unfold decCharsAux
    by_cases h10 : n < 10
    · rw [if_pos h10]
      interval_cases n <;> decide
    · rw [if_neg h10]
      rw [decVal_append_digit]
      have hrec : decVal (decCharsAux fuel (n / 10)) = n / 10 := ih (n / 10) (by omega)
      rw [hrec]
      have hm : (Nat.digitChar (n % 10)).toNat - 48 = n % 10 := by
        have : n % 10 < 10 := Nat.mod_lt n (by omega)
        interval_cases hmod : n % 10 <;> decide
      rw [hm]
      omega

theorem decVal_decChars (n : Nat) : decVal (decChars n) = n :=
  decVal_decCharsAux (n + 1) n (by omega)

theorem mkBookingId_inj {m n : Nat} (h : mkBookingId m = mkBookingId n) : m = n := by
  unfold mkBookingId at h
  have h2 : decChars m = decChars n := by
    have := List.append_cancel_left h
    exact this
  have := congrArg decVal h2
  rwa [decVal_decChars, decVal_decChars] at this

/-! ### Lemmas about `mapFirst` -/

theorem mapFirst_mem_cases {α : Type} {p : α → Bool} {f : α → α} {l : List α} {x : α}
    (h : x ∈ mapFirst p f l) : x ∈ l ∨ ∃ y ∈ l, p y = true ∧ x = f y := by
  induction l with
  | nil => cases h
  | cons a t ih =>
    unfold mapFirst at h
    split at h
    · rcases List.mem_cons.mp h with h1 | h1
      · right
        exact ⟨a, List.mem_cons_self a t, by assumption, h1⟩
      · left
        exact List.mem_cons_of_mem a h1
    · rcases List.mem_cons.mp h with h1 | h1
      · left
        rw [h1]
        exact List.mem_cons_self a t
      · rcases ih h1 with h2 | ⟨y, hy, hpy, hxy⟩
        · left
          exact List.mem_cons_of_mem a h2
        · right
          exact ⟨y, List.mem_cons_of_mem a hy, hpy, hxy⟩

theorem mapFirst_map {α β : Type} {p : α → Bool} {f : α → α} (g : α → β) {l : List α}
    (hg : ∀ x, g (f x) = g x) : (mapFirst p f l).map g = l.map g := by
  induction l with
  | nil => rfl
  | cons a t ih =>
    unfold mapFirst
    split
    · simp [hg a]
    · simp [ih]

theorem mapFirst_flip_mem {α : Type} {p : α → Bool} {f : α → α} {l : List α} {y : α}
    (hy : y ∈ l) (hpy : p y = true) :
    ∃ z ∈ l, p z = true ∧ f z ∈ mapFirst p f l := by
  induction l with
  | nil => cases hy
  | cons a t ih =>
    by_cases hpa : p a = true
    · refine ⟨a, List.mem_cons_self a t, hpa, ?_⟩
      unfold mapFirst
      rw [if_pos hpa]
      exact List.mem_cons_self _ _
    · have hya : y ∈ t := by
        rcases List.mem_cons.mp hy with h1 | h1
        · exact absurd (h1 ▸ hpy) hpa
        · exact h1
      rcases ih hya with ⟨z, hz, hpz, hfz⟩
      refine ⟨z, List.mem_cons_of_mem a hz, hpz, ?_⟩
      unfold mapFirst
      rw [if_neg hpa]
      exact List.mem_cons_of_mem a hfz

theorem mapFirst_mem_of_not_p {α : Type} {p : α → Bool} {f : α → α} {l : List α} {x : α}
    (hx : x ∈ l) (hpx : p x = false) : x ∈ mapFirst p f l := by
  induction l with
  | nil => cases hx
  | cons a t ih =>
    unfold mapFirst
    split
    · rcases List.mem_cons.mp hx with h1 | h1
      · rename_i hpa
        rw [h1] at hpx
        rw [hpx] at hpa
        cases hpa
      · exact List.mem_cons_of_mem _ h1
    · rcases List.mem_cons.mp hx with h1 | h1
      · rw [h1]
        exact List.mem_cons_self _ _
      · exact List.mem_cons_of_mem _ (ih h1)

theorem two_mem_length {α : Type} {a b : α} {l : List α} (ha : a ∈ l) (hb : b ∈ l)
    (hne : a ≠ b) : 2 ≤ l.length := by
  induction l with
  | nil => cases ha
  | cons x t ih =>
    rcases List.mem_cons.mp ha with h1 | h1
    · rcases List.mem_cons.mp hb with h2 | h2
      · exact absurd (h1.trans h2.symm) hne
      · have := List.length_pos.mpr (List.ne_nil_of_mem h2)
        simp only [List.length_cons]
        omega
    · have := List.length_pos.mpr (List.ne_nil_of_mem h1)
      simp only [List.length_cons]
      omega

theorem dictSet_append {α : Type} {m : List (Str × α)} {k : Str} {v : α}
    (h : m.any (fun e => e.1 == k) = false) : dictSet m k v = m ++ [(k, v)] := by
  unfold dictSet
  rw [if_neg (by simp [h])]

theorem slot_eq_of_id {s : DataStore} (hu : uniqueSlotIds s) {a b : Slot}
    (ha : a ∈ s.slots) (hb : b ∈ s.slots) (hid : a.slot_id = b.slot_id) : a = b :=
  List.inj_on_of_nodup_map hu ha hb hid

theorem entry_eq_of_key {m : List (Str × Booking)} (hn : (m.map Prod.fst).Nodup)
    {e₁ e₂ : Str × Booking} (h1 : e₁ ∈ m) (h2 : e₂ ∈ m) (hk : e₁.1 = e₂.1) : e₁ = e₂ :=
  List.inj_on_of_nodup_map hn h1 h2 hk

theorem get_booking_mem {bid : Str} {s : DataStore} {b : Booking}
    (h : get_booking bid s = some b) : (bid, b) ∈ s.bookings := by
  unfold get_booking at h
  cases hf : s.bookings.find? (fun e => e.1 == bid) with
  | none => rw [hf] at h; cases h
  | some e =>
    rw [hf] at h
    have hk : e.1 = bid := by
      have := List.find?_some hf
      simpa using this
    have hm := List.mem_of_find?_eq_some hf
    cases h
    rw [← hk]
    exact hm

theorem confirmedFor_length_one {s : DataStore} (h : StInv s) {e : Str × Booking}
    (he : e ∈ s.bookings) (hc : e.2.status = "confirmed") :
    (confirmedFor s e.2.slot_id).length = 1 := by
  obtain ⟨hu, hwf, hcok, hinv⟩ := h
  obtain ⟨sl, hsl, hslid, hslav⟩ := hcok e he hc
  have := hinv sl hsl hslav
  rwa [hslid] at this

theorem any_eq_false_forall {α : Type} {p : α → Bool} {l : List α} (h : l.any p = false) :
    ∀ x ∈ l, p x = false := by
  intro x hx
  cases hpx : p x with
  | false => rfl
  | true =>
    have : l.any p = true := List.any_eq_true.mpr ⟨x, hx, hpx⟩
    rw [h] at this
    cases this

theorem book_slot_StInv {s : DataStore} (h : StInv s) (sid svc nm ct : Str) :
    StInv (book_slot sid svc nm ct s).2 := by
  obtain ⟨hu, ⟨hkey, hnodup, hbound, hslotex⟩, hcok, hinv⟩ := h
  simp only [book_slot]
  cases hg : get_slot_by_id sid s with
  | none => exact ⟨hu, ⟨hkey, hnodup, hbound, hslotex⟩, hcok, hinv⟩
  | some sl0 =>
    show StInv
      { s with
        bookings := dictSet s.bookings (mkBookingId s.nextId)
          { booking_id := mkBookingId s.nextId, slot_id := sid, customer_name := nm,
            contact := ct, service := svc, date := sl0.date, time := sl0.time,
            duration := sl0.duration, price := sl0.price, status := "confirmed" },
        slots := mapFirst (fun x => x.slot_id == sid)
          (fun x => { x with available := false }) s.slots,
        nextId := s.nextId + 1 }
    have hg' : s.slots.find? (fun sl => sl.slot_id == sid && sl.available) = some sl0 := hg
    have hsl0mem : sl0 ∈ s.slots := List.mem_of_find?_eq_some hg'
    have hsl0p := List.find?_some hg'
    simp only [Bool.and_eq_true, beq_iff_eq] at hsl0p
    have hsl0id : sl0.slot_id = sid := hsl0p.1
    have hsl0av : sl0.available = true := hsl0p.2
    have hfresh : s.bookings.any (fun e => e.1 == mkBookingId s.nextId) = false := by
      cases hE : s.bookings.any (fun e => e.1 == mkBookingId s.nextId) with
      | false => rfl
      | true =>
        obtain ⟨e, he, hek⟩ := List.any_eq_true.mp hE
        obtain ⟨m, hm, hem⟩ := hbound e he
        have := mkBookingId_inj (hem.symm.trans (by simpa using hek))
        omega
    rw [dictSet_append hfresh]
    have hidmap : (mapFirst (fun x => x.slot_id == sid)
        (fun x => { x with available := false }) s.slots).map Slot.slot_id =
        s.slots.map Slot.slot_id := mapFirst_map Slot.slot_id (fun x => rfl)
    have hex_transfer : ∀ X : Str, (∃ sl ∈ s.slots, sl.slot_id = X) →
        ∃ sl ∈ mapFirst (fun x => x.slot_id == sid)
          (fun x => { x with available := false }) s.slots, sl.slot_id = X := by
      intro X hX
      obtain ⟨sl, hsl, hslX⟩ := hX
      have hmm : X ∈ (mapFirst (fun x => x.slot_id == sid)
          (fun x => { x with available := false }) s.slots).map Slot.slot_id := by
        rw [hidmap]
        exact List.mem_map.mpr ⟨sl, hsl, hslX⟩
      rcases List.mem_map.mp hmm with ⟨sl', hsl', hslX'⟩
      exact ⟨sl', hsl', hslX'⟩
    -- the flipped slot: some z with id sid becomes unavailable in the new slot list
    obtain ⟨z, hz, hpz, hfz⟩ := mapFirst_flip_mem (p := fun x => x.slot_id == sid)
      (f := fun x => { x with available := false }) hsl0mem (by simp [hsl0id])
    have hzid : z.slot_id = sid := by simpa using hpz
    have hzsl0 : z = sl0 := slot_eq_of_id hu hz hsl0mem (hzid.trans hsl0id.symm)
    refine ⟨?_, ⟨?_, ?_, ?_, ?_⟩, ?_, ?_⟩
    · unfold uniqueSlotIds
      simp only
      rw [hidmap]
      exact hu
    · intro e he
      rcases List.mem_append.mp he with h1 | h1
      · exact hkey e h1
      · rw [List.mem_singleton.mp h1]
    · simp only [List.map_append]
      apply List.Nodup.append hnodup (by simp)
      intro a ha hb
      have hbb : a = mkBookingId s.nextId := by simpa using hb
      rcases List.mem_map.mp ha with ⟨e, he, hea⟩
      have h5 := any_eq_false_forall hfresh e he
      rw [hea, hbb] at h5
      simp at h5
    · intro e he
      rcases List.mem_append.mp he with h1 | h1
      · obtain ⟨m, hm, hem⟩ := hbound e h1
        exact ⟨m, by simp only; omega, hem⟩
      · rw [List.mem_singleton.mp h1]
        exact ⟨s.nextId, by simp only; omega, rfl⟩
    · intro e he
      rcases List.mem_append.mp he with h1 | h1
      · exact hex_transfer _ (hslotex e h1)
      · rw [List.mem_singleton.mp h1]
        exact hex_transfer sid ⟨sl0, hsl0mem, hsl0id⟩
    · -- confirmedOK
      intro e he hc
      rcases List.mem_append.mp he with h1 | h1
      · obtain ⟨sl, hsl, hslid, hslav⟩ := hcok e h1 hc
        have hslne : sl.slot_id ≠ sid := by
          intro hcon
          have : sl = sl0 := slot_eq_of_id hu hsl hsl0mem (hcon.trans hsl0id.symm)
          rw [this, hsl0av] at hslav
          cases hslav
        refine ⟨sl, mapFirst_mem_of_not_p hsl ?_, hslid, hslav⟩
        simpa using hslne
      · rw [List.mem_singleton.mp h1]
        exact ⟨{ z with available := false }, hfz, hzid, rfl⟩
    · -- slotBookingInv
      intro sl' hsl' hav'
      have hcf : ∀ X : Str, confirmedFor
          { s with
            bookings := s.bookings ++ [(mkBookingId s.nextId,
              { booking_id := mkBookingId s.nextId, slot_id := sid, customer_name := nm,
                contact := ct, service := svc, date := sl0.date, time := sl0.time,
                duration := sl0.duration, price := sl0.price, status := "confirmed" })],
            slots := mapFirst (fun x => x.slot_id == sid)
              (fun x => { x with available := false }) s.slots,
            nextId := s.nextId + 1 } X =
          confirmedFor s X ++ (if sid == X then
            [{ booking_id := mkBookingId s.nextId, slot_id := sid, customer_name := nm,
               contact := ct, service := svc, date := sl0.date, time := sl0.time,
               duration := sl0.duration, price := sl0.price, status := "confirmed" }] else []) := by
        intro X
        unfold confirmedFor
        simp only [List.map_append, List.filter_append, List.map_cons, List.map_nil]
        by_cases hX : (sid == X) = true
        · rw [if_pos hX]
          simp [List.filter_cons, hX]
        · rw [if_neg hX]
          simp [List.filter_cons, hX]
      rw [hcf sl'.slot_id]
      by_cases hXs : (sid == sl'.slot_id) = true
      · rw [if_pos hXs]
        have hXeq : sid = sl'.slot_id := eq_of_beq hXs
        have hold : confirmedFor s sl'.slot_id = [] := by
          cases hcf0 : confirmedFor s sl'.slot_id with
          | nil => rfl
          | cons b rest =>
            exfalso
            have hb : b ∈ confirmedFor s sl'.slot_id := by
              rw [hcf0]
              exact List.mem_cons_self _ _
            have hb2 := List.mem_filter.mp hb
            obtain ⟨hbmem, hbpred⟩ := hb2
            rcases List.mem_map.mp hbmem with ⟨e, he, hbe⟩
            simp only [Bool.and_eq_true, beq_iff_eq] at hbpred
            obtain ⟨sl2, hsl2, hsl2id, hsl2av⟩ := hcok e he (by rw [hbe]; exact hbpred.1)
            have hsl2eq : sl2 = sl0 := slot_eq_of_id hu hsl2 hsl0mem
              (by rw [hsl2id, hbe, hbpred.2, ← hXeq, ← hsl0id])
            rw [hsl2eq, hsl0av] at hsl2av
            cases hsl2av
        rw [hold]
        simp
      · rw [if_neg hXs]
        simp only [List.append_nil]
        rcases mapFirst_mem_cases hsl' with h1 | h1
        · exact hinv sl' h1 hav'
        · exfalso
          obtain ⟨y, hy, hpy, hsl'y⟩ := h1
          have hid : sl'.slot_id = sid := by
            rw [hsl'y]
            simpa using hpy
          exact hXs (by simp [hid])

theorem filter_snd_map_update {m : List (Str × Booking)} {F : Str × Booking → Str × Booking}
    {P : Booking → Bool}
    (hF : ∀ e ∈ m, P (F e).2 = P e.2 ∧ (P e.2 = true → (F e).2 = e.2)) :
    ((m.map F).map Prod.snd).filter P = (m.map Prod.snd).filter P := by
  induction m with
  | nil => rfl
  | cons e t ih =>
    simp only [List.map_cons, List.filter_cons]
    have h1 := hF e (List.mem_cons_self _ _)
    have ht := ih (fun x hx => hF x (List.mem_cons_of_mem _ hx))
    by_cases hp : P e.2 = true
    · rw [hp, h1.1, hp, if_pos rfl, if_pos rfl, h1.2 hp, ht]
    · have hp' : P e.2 = false := by
        revert hp
        cases P e.2 <;> simp
      rw [hp', h1.1, hp']
      simp only [Bool.false_eq_true, if_false]
      exact ht

theorem cancel_booking_StInv {s : DataStore} (h : StInv s) (bid : Str)
    (hgood : ∀ b, get_booking bid s = some b → b.status = "confirmed") :
    StInv (cancel_booking bid s).2 := by
  obtain ⟨hu, ⟨hkey, hnodup, hbound, hslotex⟩, hcok, hinv⟩ := h
  simp only [cancel_booking]
  cases hgb : get_booking bid s with
  | none => exact ⟨hu, ⟨hkey, hnodup, hbound, hslotex⟩, hcok, hinv⟩
  | some b =>
    show StInv
      { s with
        slots := mapFirst (fun x => x.slot_id == b.slot_id)
          (fun x => { x with available := true }) s.slots,
        bookings := s.bookings.map (fun e =>
          if e.1 == bid then (e.1, { e.2 with status := "cancelled" }) else e) }
    have hconf : b.status = "confirmed" := hgood b hgb
    have hbent : (bid, b) ∈ s.bookings := get_booking_mem hgb
    obtain ⟨slb, hslb, hslbid, hslbav⟩ := hcok (bid, b) hbent hconf
    have hcount : (confirmedFor s b.slot_id).length = 1 :=
      confirmedFor_length_one ⟨hu, ⟨hkey, hnodup, hbound, hslotex⟩, hcok, hinv⟩ hbent hconf
    have hkeyuniq : ∀ e ∈ s.bookings, e.1 = bid → e = (bid, b) := by
      intro e he hek
      exact entry_eq_of_key hnodup he hbent (by rw [hek])
    have hslotne : ∀ e ∈ s.bookings, e.2.status = "confirmed" → e ≠ (bid, b) →
        e.2.slot_id ≠ b.slot_id := by
      intro e he hec hene hcon
      have hbmem : b ∈ confirmedFor s b.slot_id := by
        unfold confirmedFor
        exact List.mem_filter.mpr ⟨List.mem_map.mpr ⟨(bid, b), hbent, rfl⟩, by simp [hconf]⟩
      have hemem : e.2 ∈ confirmedFor s b.slot_id := by
        unfold confirmedFor
        exact List.mem_filter.mpr ⟨List.mem_map.mpr ⟨e, he, rfl⟩, by simp [hec, hcon]⟩
      have hvalne : e.2 ≠ b := by
        intro hv
        apply hene
        have h1 : e.1 = e.2.booking_id := hkey e he
        have h2 : b.booking_id = bid := (hkey (bid, b) hbent).symm
        exact hkeyuniq e he (by rw [h1, hv, h2])
      have := two_mem_length hemem hbmem hvalne
      omega
    have hidmap : (mapFirst (fun x => x.slot_id == b.slot_id)
        (fun x => { x with available := true }) s.slots).map Slot.slot_id =
        s.slots.map Slot.slot_id := mapFirst_map Slot.slot_id (fun x => rfl)
    have hkeys : ((s.bookings.map (fun e =>
        if e.1 == bid then (e.1, { e.2 with status := "cancelled" }) else e)).map Prod.fst) =
        s.bookings.map Prod.fst := by
      rw [List.map_map]
      apply List.map_congr_left
      intro e _
      simp only [Function.comp_apply]
      by_cases hb : (e.1 == bid) = true
      · rw [if_pos hb]
      · rw [if_neg hb]
    have hex_transfer : ∀ X : Str, (∃ sl ∈ s.slots, sl.slot_id = X) →
        ∃ sl ∈ mapFirst (fun x => x.slot_id == b.slot_id)
          (fun x => { x with available := true }) s.slots, sl.slot_id = X := by
      intro X hX
      obtain ⟨sl, hsl, hslX⟩ := hX
      have hmm : X ∈ (mapFirst (fun x => x.slot_id == b.slot_id)
          (fun x => { x with available := true }) s.slots).map Slot.slot_id := by
        rw [hidmap]
        exact List.mem_map.mpr ⟨sl, hsl, hslX⟩
      rcases List.mem_map.mp hmm with ⟨sl', hsl', hslX'⟩
      exact ⟨sl', hsl', hslX'⟩
    have hcfX : ∀ X : Str, X ≠ b.slot_id →
        ((s.bookings.map (fun e =>
            if e.1 == bid then (e.1, { e.2 with status := "cancelled" }) else e)).map
          Prod.snd).filter (fun x => x.status == "confirmed" && x.slot_id == X) =
        (s.bookings.map Prod.snd).filter
          (fun x => x.status == "confirmed" && x.slot_id == X) := by
      intro X hX
      apply filter_snd_map_update
      intro e he
      by_cases hb : (e.1 == bid) = true
      · have heb : e = (bid, b) := hkeyuniq e he (eq_of_beq hb)
        have hbne : (b.slot_id == X) = false := by
          simp only [beq_eq_false_iff_ne, ne_eq]
          exact fun hcc => hX hcc.symm
        constructor
        · rw [if_pos hb, heb]
          simp [hbne]
        · intro hPe
          rw [heb] at hPe
          simp [hbne] at hPe
      · rw [if_neg hb]
        exact ⟨rfl, fun _ => rfl⟩
    refine ⟨?_, ⟨?_, ?_, ?_, ?_⟩, ?_, ?_⟩
    · unfold uniqueSlotIds
      simp only
      rw [hidmap]
      exact hu
    · intro e' he'
      rcases List.mem_map.mp he' with ⟨e, he, he'e⟩
      by_cases hb : (e.1 == bid) = true
      · rw [if_pos hb] at he'e
        rw [← he'e]
        exact hkey e he
      · rw [if_neg hb] at he'e
        rw [← he'e]
        exact hkey e he
    · simp only
      rw [hkeys]
      exact hnodup
    · intro e' he'
      rcases List.mem_map.mp he' with ⟨e, he, he'e⟩
      obtain ⟨m, hm, hem⟩ := hbound e he
      refine ⟨m, by simp only; omega, ?_⟩
      rw [← he'e]
      by_cases hb : (e.1 == bid) = true
      · rw [if_pos hb]
        exact hem
      · rw [if_neg hb]
        exact hem
    · intro e' he'
      rcases List.mem_map.mp he' with ⟨e, he, he'e⟩
      have hsame : e'.2.slot_id = e.2.slot_id := by
        rw [← he'e]
        by_cases hb : (e.1 == bid) = true
        · rw [if_pos hb]
        · rw [if_neg hb]
      rw [hsame]
      exact hex_transfer _ (hslotex e he)
    · -- confirmedOK
      intro e' he' hc'
      rcases List.mem_map.mp he' with ⟨e, he, he'e⟩
      by_cases hb : (e.1 == bid) = true
      · rw [if_pos hb] at he'e
        rw [← he'e] at hc'
        simp at hc'
      · rw [if_neg hb] at he'e
        rw [← he'e] at hc' ⊢
        obtain ⟨sl, hsl, hslid, hslav⟩ := hcok e he hc'
        have hene : e ≠ (bid, b) := by
          intro hcc
          rw [hcc] at hb
          simp at hb
        have hne := hslotne e he hc' hene
        refine ⟨sl, mapFirst_mem_of_not_p hsl ?_, hslid, hslav⟩
        simp only [beq_eq_false_iff_ne, ne_eq, hslid]
        exact hne
    · -- slotBookingInv
      intro sl' hsl' hav'
      have hsl'old : sl' ∈ s.slots := by
        rcases mapFirst_mem_cases hsl' with h1 | h1
        · exact h1
        · exfalso
          obtain ⟨y, hy, hpy, hsl'y⟩ := h1
          rw [hsl'y] at hav'
          cases hav'
      have hne : sl'.slot_id ≠ b.slot_id := by
        intro hcc
        obtain ⟨z, hz, hpz, hfz⟩ := mapFirst_flip_mem (p := fun x => x.slot_id == b.slot_id)
          (f := fun x => { x with available := true }) hslb (by simp [hslbid])
        have hzid : ({ z with available := true } : Slot).slot_id = b.slot_id := by
          simpa using hpz
        have hnodup' : ((mapFirst (fun x => x.slot_id == b.slot_id)
            (fun x => { x with available := true }) s.slots).map Slot.slot_id).Nodup := by
          rw [hidmap]
          exact hu
        have : sl' = { z with available := true } :=
          List.inj_on_of_nodup_map hnodup' hsl' hfz (by rw [hcc, hzid])
        rw [this] at hav'
        cases hav'
      have hres := hcfX sl'.slot_id hne
      unfold confirmedFor
      simp only
      rw [hres]
      exact hinv sl' hsl'old hav'

theorem applyOp_StInv {s : DataStore} (h : StInv s) (op : StoreOp)
    (hok : (match op with
      | .cancel bid =>
        match get_booking bid s with
        | some b => b.status == "confirmed"
        | none => true
      | _ => true) = true) : StInv (applyOp s op) := by
  cases op with
  | book sid svc nm ct => exact book_slot_StInv h sid svc nm ct
  | cancel bid =>
    apply cancel_booking_StInv h bid
    intro b hgb
    have hok2 : (match get_booking bid s with
      | some b => b.status == "confirmed"
      | none => true) = true := hok
    rw [hgb] at hok2
    simpa using hok2

theorem runOps_StInv {s : DataStore} (h : StInv s) {ops : List StoreOp}
    (hgood : goodOpsB s ops = true) : StInv (runOps s ops) := by
  induction ops generalizing s with
  | nil => exact h
  | cons op rest ih =>
    unfold goodOpsB at hgood
    rw [Bool.and_eq_true] at hgood
    exact ih (applyOp_StInv h op hgood.1) hgood.2

theorem isFreshStore_StInv {s : DataStore} (h : isFreshStore s) : StInv s := by
  obtain ⟨hsvc, hbook, hnext, hslots, hnodup⟩ := h
  refine ⟨hnodup, ⟨?_, ?_, ?_, ?_⟩, ?_, ?_⟩
  · intro e he
    rw [hbook] at he
    cases he
  · rw [hbook]
    simp
  · intro e he
    rw [hbook] at he
    cases he
  · intro e he
    rw [hbook] at he
    cases he
  · intro e he
    rw [hbook] at he
    cases he
  · intro sl hsl hav
    rw [(hslots sl hsl).1] at hav
    cases hav

/-- Claim C1 (amended): starting from a fresh store, after any sequence of
`book_slot` and `cancel_booking` calls in which no already-cancelled booking
is cancelled a second time, every slot with `available = false` has exactly
one confirmed booking referencing its slot ID; and on such a store every
successful `cancel_booking` restores the referenced slot's availability. -/
theorem booking_store_invariant (s : DataStore) (ops : List StoreOp)
    (hfresh : isFreshStore s) (hgood : goodOpsB s ops = true) :
    slotBookingInv (runOps s ops) ∧
    (∀ bid b, get_booking bid (runOps s ops) = some b →
      (cancel_booking bid (runOps s ops)).1.success = true ∧
      ∀ sl ∈ (cancel_booking bid (runOps s ops)).2.slots,
        sl.slot_id = b.slot_id → sl.available = true) := by
  obtain ⟨hu, ⟨hkey, hnodup, hbound, hslotex⟩, hcok, hinv⟩ :=
    runOps_StInv (isFreshStore_StInv hfresh) hgood
  refine ⟨hinv, ?_⟩
  intro bid b hgb
  have hred2 : (cancel_booking bid (runOps s ops)).2 =
      { runOps s ops with
        slots := mapFirst (fun x => x.slot_id == b.slot_id)
          (fun x => { x with available := true }) (runOps s ops).slots,
        bookings := (runOps s ops).bookings.map (fun e =>
          if e.1 == bid then (e.1, { e.2 with status := "cancelled" }) else e) } := by
    simp only [cancel_booking]
    rw [hgb]
  have hred1 : (cancel_booking bid (runOps s ops)).1.success = true := by
    simp only [cancel_booking]
    rw [hgb]
  refine ⟨hred1, ?_⟩
  intro sl hsl hid
  rw [hred2] at hsl
  obtain ⟨slb, hslb, hslbid⟩ := hslotex (bid, b) (get_booking_mem hgb)
  obtain ⟨z, hz, hpz, hfz⟩ := mapFirst_flip_mem (p := fun x => x.slot_id == b.slot_id)
    (f := fun x => { x with available := true }) hslb (by simp [hslbid])
  have hidmap : (mapFirst (fun x => x.slot_id == b.slot_id)
      (fun x => { x with available := true }) (runOps s ops).slots).map Slot.slot_id =
      (runOps s ops).slots.map Slot.slot_id := mapFirst_map Slot.slot_id (fun x => rfl)
  have hnodup' : ((mapFirst (fun x => x.slot_id == b.slot_id)
      (fun x => { x with available := true }) (runOps s ops).slots).map Slot.slot_id).Nodup :=
    by rw [hidmap]; exact hu
  have hzid : ({ z with available := true } : Slot).slot_id = b.slot_id := by simpa using hpz
  have hslz : sl = { z with available := true } :=
    List.inj_on_of_nodup_map hnodup' hsl hfz (by rw [hid, hzid])
  rw [hslz]

def goodC1Ops : List StoreOp :=
  [ .book "SL101200".data "Hair Wash".data "jane doe".data "9876543210".data,
    .cancel "BK0".data,
    .book "SL101200".data "Hair Wash".data "john smith".data "9876543211".data ]

/-- Witness for C1 (amended): a concrete book/cancel/rebook run. -/
theorem booking_store_invariant_w :
    isFreshStore sampleFreshStore ∧ goodOpsB sampleFreshStore goodC1Ops = true ∧
    slotBookingInv (runOps sampleFreshStore goodC1Ops) :=
  ⟨by decide, by decide,
   (booking_store_invariant sampleFreshStore goodC1Ops (by decide) (by decide)).1⟩

def badC1Ops : List StoreOp :=
  [ .book "SL101200".data "Hair Wash".data "jane doe".data "9876543210".data,
    .cancel "BK0".data,
    .book "SL101200".data "Hair Wash".data "john smith".data "9876543211".data,
    .cancel "BK0".data,
    .book "SL101200".data "Hair Wash".data "mary major".data "9876543212".data ]

/-- Counterexample to C1 as stated: cancelling the same (already cancelled)
booking a second time frees the slot again although a confirmed booking still
references it; rebooking then leaves the slot unavailable with TWO confirmed
bookings, violating the exactly-one invariant. -/
theorem booking_store_claim_cex :
    isFreshStore sampleFreshStore ∧
    (confirmedFor (runOps sampleFreshStore badC1Ops) "SL101200".data).length = 2 ∧
    ¬ slotBookingInv (runOps sampleFreshStore badC1Ops) := by
  refine ⟨by decide, by decide, by decide⟩

/-! ## C2: the full booking round trip -/

theorem mapFirst_find? {α : Type} {p : α → Bool} {f : α → α} {l : List α} {y : α}
    (h : l.find? p = some y) : f y ∈ mapFirst p f l := by
  induction l with
  | nil => cases h
  | cons a t ih =>
    unfold mapFirst
    cases hpa : p a with
    | true =>
      rw [List.find?_cons_of_pos _ hpa] at h
      cases h
      simp [hpa]
    | false =>
      rw [List.find?_cons_of_neg _ (by simp [hpa])] at h
      simp [hpa, ih h]

theorem get_slot_by_id_of_mem {s : DataStore} {sl : Slot}
    (hnd : (s.slots.map Slot.slot_id).Nodup) (hm : sl ∈ s.slots) (hav : sl.available = true) :
    get_slot_by_id sl.slot_id s = some sl := by
  unfold get_slot_by_id
  cases hf : s.slots.find? (fun x => x.slot_id == sl.slot_id && x.available) with
  | none =>
    exfalso
    have := List.find?_eq_none.mp hf sl hm
    simp [hav] at this
  | some y =>
    have hym := List.mem_of_find?_eq_some hf
    have hyp := List.find?_some hf
    simp only [Bool.and_eq_true, beq_iff_eq] at hyp
    have : y = sl := List.inj_on_of_nodup_map hnd hym hm hyp.1
    rw [this]

theorem pad3_len_ge (n : Nat) : 3 ≤ (pad3 n).length := by
  simp only [pad3, List.length_append, List.length_replicate]
  omega

theorem nodup_append_new {l : List Slot} {x : Slot}
    (hav : ∀ sl ∈ l, sl.available = true ∧ sl.slot_id.length = 8)
    (hnd : (l.map Slot.slot_id).Nodup) (hx : 13 ≤ x.slot_id.length) :
    ((l ++ [x]).map Slot.slot_id).Nodup := by
  rw [List.map_append, List.nodup_append]
  refine ⟨hnd, List.nodup_singleton _, ?_⟩
  intro a ha ha2
  simp only [List.map_cons, List.map_nil, List.mem_singleton] at ha2
  obtain ⟨sl, hsl, hid⟩ := List.mem_map.mp ha
  have h8 := (hav sl hsl).2
  rw [hid, ha2] at h8
  omega

theorem find_or_create_slot_spec (service date time : Str) (s : DataStore)
    (hav : ∀ sl ∈ s.slots, sl.available = true ∧ sl.slot_id.length = 8)
    (hnd : (s.slots.map Slot.slot_id).Nodup)
    (hdate : (date.filter (fun c => !(c == '-'))).length = 8) :
    (find_or_create_slot service date time s).1 ∈ (find_or_create_slot service date time s).2.slots ∧
    (find_or_create_slot service date time s).1.available = true ∧
    ((find_or_create_slot service date time s).2.slots.map Slot.slot_id).Nodup ∧
    (find_or_create_slot service date time s).2.bookings = s.bookings ∧
    (find_or_create_slot service date time s).2.nextId = s.nextId ∧
    (find_or_create_slot service date time s).2.services = s.services := by
  simp only [find_or_create_slot]
  cases h1 : s.slots.find? (fun sl =>
      sl.date == date && sl.time == time && sl.service == service && sl.available) with
  | some sl =>
    have hm := List.mem_of_find?_eq_some h1
    have hp := List.find?_some h1
    simp only [Bool.and_eq_true] at hp
    exact ⟨hm, hp.2, hnd, rfl, rfl, rfl⟩
  | none =>
    cases h2 : s.slots.find? (fun sl => sl.date == date && sl.time == time && sl.available) with
    | some sl =>
      have hp := List.find?_some h2
      simp only [Bool.and_eq_true] at hp
      cases hsv : s.services.find? (fun sv => sv.name == service) with
      | some sv =>
        have key : ((mapFirst (fun x => x.date == date && x.time == time && x.available)
            (fun x => { x with service := service, duration := sv.duration, price := sv.price })
            s.slots).map Slot.slot_id).Nodup := by
          have e := @mapFirst_map Slot Str
            (fun x => x.date == date && x.time == time && x.available)
            (fun x => { x with service := service, duration := sv.duration, price := sv.price })
            Slot.slot_id s.slots (fun x => rfl)
          rw [e]
          exact hnd
        exact ⟨mapFirst_find? h2, hp.2, key, rfl, rfl, rfl⟩
      | none =>
        have key : ((mapFirst (fun x => x.date == date && x.time == time && x.available)
            (fun x => { x with service := service })
            s.slots).map Slot.slot_id).Nodup := by
          have e := @mapFirst_map Slot Str
            (fun x => x.date == date && x.time == time && x.available)
            (fun x => { x with service := service })
            Slot.slot_id s.slots (fun x => rfl)
          rw [e]
          exact hnd
        exact ⟨mapFirst_find? h2, hp.2, key, rfl, rfl, rfl⟩
    | none =>
      have hlen : 13 ≤ ("SL".data ++ date.filter (fun c => !(c == '-')) ++
          pad3 s.slots.length).length := by
        simp only [List.length_append, hdate]
        have hSL : ("SL".data : Str).length = 2 := rfl
        rw [hSL]
        have := pad3_len_ge s.slots.length
        omega
      exact ⟨List.mem_append_right _ (List.mem_singleton.mpr rfl), rfl,
        nodup_append_new hav hnd hlen, rfl, rfl, rfl⟩

/-- The booking record `book_slot` creates for slot `sl` at counter `s.nextId`. -/
def bkOf (s : DataStore) (sl : Slot) (service name contact : Str) : Booking :=
  { booking_id := mkBookingId s.nextId, slot_id := sl.slot_id, customer_name := name,
    contact := contact, service := service, date := sl.date, time := sl.time,
    duration := sl.duration, price := sl.price, status := "confirmed" }

theorem book_slot_eq {s : DataStore} {sl : Slot} (service name contact : Str)
    (hnd : (s.slots.map Slot.slot_id).Nodup) (hm : sl ∈ s.slots) (hav : sl.available = true) :
    book_slot sl.slot_id service name contact s =
      ({ success := true, error := none, booking_id := some (mkBookingId s.nextId),
         booking := some (bkOf s sl service name contact) },
       { s with
          bookings := dictSet s.bookings (mkBookingId s.nextId) (bkOf s sl service name contact),
          slots := mapFirst (fun x => x.slot_id == sl.slot_id)
            (fun x => { x with available := false }) s.slots,
          nextId := s.nextId + 1 }) := by
  simp only [book_slot]
  rw [get_slot_by_id_of_mem hnd hm hav]
  rfl

theorem get_booking_cons_self {s : DataStore} {b : Booking}
    (h : s.bookings = [(b.booking_id, b)]) : get_booking b.booking_id s = some b := by
  unfold get_booking
  rw [h]
  simp

theorem c2_pm_mid (clock : Clock) (store : DataStore) (msg : Str) (sid : String) (sess : Session)
    (hmid : sess.conversation_state ∈ midFlowStates) :
    (process_message clock { store := store, sessions := [(sid, sess)] } msg sid).1 =
      { store := (handle_booking clock (preprocess_text msg) sess store).2.2,
        sessions := [(sid,
          { (handle_booking clock (preprocess_text msg) sess store).2.1 with
            last_intent := some (classify_intent (preprocess_text msg)).1 })] } := by
  simp only [process_message]
  have hany : ([(sid, sess)].any (fun e => e.1 == sid)) = true := by simp
  rw [if_pos hany]
  have hsess : (([(sid, sess)].find? (fun e => e.1 == sid)).map Prod.snd).getD freshSession
      = sess := by simp
  rw [hsess]
  have hgr : generate_response clock (classify_intent (preprocess_text msg)).1
      (preprocess_text msg) sess store =
      .ok (handle_booking clock (preprocess_text msg) sess store) := by
    simp only [generate_response]
    rw [if_pos hmid]
  rw [hgr]
  have hds : dictSet [(sid, sess)] sid
      { (handle_booking clock (preprocess_text msg) sess store).2.1 with
        last_intent := some (classify_intent (preprocess_text msg)).1 } =
      [(sid, { (handle_booking clock (preprocess_text msg) sess store).2.1 with
        last_intent := some (classify_intent (preprocess_text msg)).1 })] := by
    simp [dictSet]
  show ChatBot.mk ((handle_booking clock (preprocess_text msg) sess store).2.2)
    (dictSet [(sid, sess)] sid
      { (handle_booking clock (preprocess_text msg) sess store).2.1 with
        last_intent := some (classify_intent (preprocess_text msg)).1 }) = _
  rw [hds]

theorem c2_step1 (clock : Clock) (store : DataStore) (sid : String) :
    (process_message clock { store := store, sessions := [] } "book".data sid).1 =
      { store := store,
        sessions := [(sid, { context := emptyCtx, last_intent := some "book_slot",
                             conversation_state := "selecting_service" })] } := by
  have hic : (classify_intent (preprocess_text "book".data)).1 = "book_slot" := by
    with_unfolding_all decide
  have hds : ∀ v : Session, dictSet [(sid, freshSession)] sid v = [(sid, v)] := by
    intro v
    simp [dictSet]
  simp only [process_message]
  have h1 : (if ([] : List (String × Session)).any (fun e => e.1 == sid) = true
      then ([] : List (String × Session)) else [] ++ [(sid, freshSession)])
      = [(sid, freshSession)] := by simp
  rw [h1]
  have h2 : (([(sid, freshSession)].find? (fun e => e.1 == sid)).map Prod.snd).getD freshSession
      = freshSession := by simp
  rw [h2, hic]
  have hgr : generate_response clock "book_slot" (preprocess_text "book".data) freshSession store
      = .ok (handle_booking clock (preprocess_text "book".data) freshSession store) := by
    simp only [generate_response]
    rw [if_neg (by decide), if_neg (by decide), if_neg (by decide), if_neg (by decide),
      if_neg (by decide), if_pos trivial]
  rw [hgr]
  have hhb : handle_booking clock (preprocess_text "book".data) freshSession store =
      (some (show_service_selection store),
       { context := emptyCtx, last_intent := none, conversation_state := "selecting_service" },
       store) := by
    simp only [handle_booking]
    rw [if_pos (by decide : freshSession.conversation_state = "" ∨
      freshSession.conversation_state = "greeting" ∨
      lowerStr (stripWS (preprocess_text "book".data)) ∈ bookTriggers)]
    rfl
  rw [hhb]
  show ChatBot.mk store (dictSet [(sid, freshSession)] sid
      { context := emptyCtx, last_intent := some "book_slot",
        conversation_state := "selecting_service" }) = _
  rw [hds]

theorem hb_select_service (clock : Clock) (store : DataStore) (sess : Session) (svc : Service)
    (hcs : sess.conversation_state = "selecting_service")
    (hsvcs : store.services = defaultServices) (hsvc : svc ∈ defaultServices) :
    (handle_booking clock (preprocess_text svc.name) sess store).2 =
      ({ sess with conversation_state := "selecting_time_slot",
                   context := { sess.context with selected_service := some svc.name } }, store) := by
  have hmatch : match_service_from_text (preprocess_text svc.name) defaultServices
      = some svc.name := by
    fin_cases hsvc <;> decide
  have htrig : lowerStr (stripWS (preprocess_text svc.name)) ∈ bookTriggers → False := by
    fin_cases hsvc <;> decide
  simp only [handle_booking, hcs]
  rw [if_neg (by rintro (h | h | h) <;> revert h <;> first | decide | exact htrig)]
  rw [if_pos trivial, hsvcs, hmatch]

theorem hb_select_time (clock : Clock) (store : DataStore) (sess : Session) (ts : Str)
    (hcs : sess.conversation_state = "selecting_time_slot")
    (hts : ts ∈ get_available_time_slots) :
    (handle_booking clock (preprocess_text ts) sess store).2 =
      ({ sess with conversation_state := "selecting_staff",
                   context := { sess.context with selected_time_slot := some ts } }, store) := by
  have hmatch : match_time_slot_from_text (preprocess_text ts) = some ts := by
    fin_cases hts <;> decide
  have htrig : lowerStr (stripWS (preprocess_text ts)) ∈ bookTriggers → False := by
    fin_cases hts <;> decide
  simp only [handle_booking, hcs]
  rw [if_neg (by rintro (h | h | h) <;> revert h <;> first | decide | exact htrig)]
  rw [if_neg (by decide), if_pos trivial, hmatch]
  show ((if ts ∈ get_available_time_slots then _ else _ :
    Option Str × Session × DataStore)).2 = _
  rw [if_pos hts]

theorem hb_staff_any (clock : Clock) (store : DataStore) (sess : Session)
    (hcs : sess.conversation_state = "selecting_staff") :
    (handle_booking clock (preprocess_text "any".data) sess store).2 =
      ({ sess with conversation_state := "showing_details",
                   context := { sess.context with
                                staff_preference := some "Any Available Staff".data } }, store) := by
  simp only [handle_booking, hcs]
  rw [if_neg (by decide), if_neg (by decide), if_neg (by decide), if_pos trivial,
    if_pos (by decide)]
  rfl

theorem hb_confirm (clock : Clock) (store : DataStore) (sess : Session)
    (hcs : sess.conversation_state = "showing_details") :
    (handle_booking clock (preprocess_text "confirm".data) sess store).2 =
      ({ sess with conversation_state := "awaiting_customer_details" }, store) := by
  simp only [handle_booking, hcs]
  rw [if_neg (by decide), if_neg (by decide), if_neg (by decide), if_neg (by decide),
    if_pos trivial, if_pos (by decide)]

/-- The `last_booking` record stored on the confirmation path for details "jane doe, 9876543210". -/
def c2Lb (clock : Clock) (sess : Session) (svcname ts : Str) (sd : Service)
    (bid slid : Str) : LastBooking :=
  { name := "jane doe".data, service := svcname, date := clock.today, time := ts,
    duration := sd.duration, contact := "9876543210".data, booking_id := bid,
    slot_id := slid, price := sd.price,
    staff := sess.context.staff_preference.getD "Any Available Staff".data }

theorem pbd_eq (clock : Clock) (store : DataStore) (sess : Session) (svcname ts : Str)
    (sd : Service)
    (hsel : sess.context.selected_service = some svcname)
    (htsl : sess.context.selected_time_slot = some ts)
    (hfind : store.services.find? (fun sv => sv.name == svcname) = some sd)
    (hav : ∀ sl ∈ store.slots, sl.available = true ∧ sl.slot_id.length = 8)
    (hnd : (store.slots.map Slot.slot_id).Nodup)
    (hdate : (clock.today.filter (fun c => !(c == '-'))).length = 8) :
    process_booking_details clock "jane doe, 9876543210".data sess store =
      (some (bookingConfirmedMsg "jane doe".data svcname sd clock.today ts
        (sess.context.staff_preference.getD "Any Available Staff".data) "9876543210".data
        (mkBookingId (find_or_create_slot svcname clock.today ts store).2.nextId)),
       { sess with
          conversation_state := "booking_complete",
          context := { sess.context with last_booking := some (c2Lb clock sess svcname ts sd
            (mkBookingId (find_or_create_slot svcname clock.today ts store).2.nextId)
            (find_or_create_slot svcname clock.today ts store).1.slot_id) } },
       { (find_or_create_slot svcname clock.today ts store).2 with
          bookings := dictSet (find_or_create_slot svcname clock.today ts store).2.bookings
            (mkBookingId (find_or_create_slot svcname clock.today ts store).2.nextId)
            (bkOf (find_or_create_slot svcname clock.today ts store).2
              (find_or_create_slot svcname clock.today ts store).1
              svcname "jane doe".data "9876543210".data),
          slots := mapFirst
            (fun x => x.slot_id == (find_or_create_slot svcname clock.today ts store).1.slot_id)
            (fun x => { x with available := false })
            (find_or_create_slot svcname clock.today ts store).2.slots,
          nextId := (find_or_create_slot svcname clock.today ts store).2.nextId + 1 }) := by
  obtain ⟨hfm, hfav, hfnd, hfbk, hfnx, hfsv⟩ :=
    find_or_create_slot_spec svcname clock.today ts store hav hnd hdate
  simp only [process_booking_details]
  rw [if_neg (by decide), if_neg (by decide), hsel, htsl]
  show (match store.services.find? (fun sv => sv.name == svcname) with
    | none => (_ : Option Str × Session × DataStore)
    | some sd => _) = _
  rw [hfind]
  show (if (book_slot (find_or_create_slot svcname clock.today ts store).1.slot_id svcname
      _ _ (find_or_create_slot svcname clock.today ts store).2).1.success = true
    then (_ : Option Str × Session × DataStore) else _) = _
  rw [book_slot_eq svcname _ _ hfnd hfm hfav]
  rw [if_pos (by rfl)]
  rfl

theorem hb_details (clock : Clock) (store : DataStore) (sess : Session) (svcname ts : Str)
    (sd : Service)
    (hcs : sess.conversation_state = "awaiting_customer_details")
    (hsel : sess.context.selected_service = some svcname)
    (htsl : sess.context.selected_time_slot = some ts)
    (hfind : store.services.find? (fun sv => sv.name == svcname) = some sd)
    (hbk : store.bookings = [])
    (hav : ∀ sl ∈ store.slots, sl.available = true ∧ sl.slot_id.length = 8)
    (hnd : (store.slots.map Slot.slot_id).Nodup)
    (hdate : (clock.today.filter (fun c => !(c == '-'))).length = 8) :
    ∃ b : Booking,
      (handle_booking clock (preprocess_text "Jane Doe, 9876543210".data)
        sess store).2.1.conversation_state = "booking_complete" ∧
      b.status = "confirmed" ∧
      get_booking b.booking_id
        (handle_booking clock (preprocess_text "Jane Doe, 9876543210".data) sess store).2.2 =
        some b ∧
      ∃ z ∈ (handle_booking clock (preprocess_text "Jane Doe, 9876543210".data)
          sess store).2.2.slots,
        z.slot_id = b.slot_id ∧ z.available = false := by
  obtain ⟨hfm, hfav, hfnd, hfbk, hfnx, hfsv⟩ :=
    find_or_create_slot_spec svcname clock.today ts store hav hnd hdate
  have hpre : preprocess_text "Jane Doe, 9876543210".data = "jane doe, 9876543210".data := by
    decide
  have hhb : handle_booking clock (preprocess_text "Jane Doe, 9876543210".data) sess store =
      process_booking_details clock "jane doe, 9876543210".data sess store := by
    rw [hpre]
    simp only [handle_booking, hcs]
    rw [if_neg (by decide), if_neg (by decide), if_neg (by decide), if_neg (by decide),
      if_neg (by decide), if_pos trivial]
  rw [hhb, pbd_eq clock store sess svcname ts sd hsel htsl hfind hav hnd hdate]
  refine ⟨bkOf (find_or_create_slot svcname clock.today ts store).2
    (find_or_create_slot svcname clock.today ts store).1
    svcname "jane doe".data "9876543210".data, rfl, rfl, ?_, ?_⟩
  · apply get_booking_cons_self
    show dictSet (find_or_create_slot svcname clock.today ts store).2.bookings
      (mkBookingId (find_or_create_slot svcname clock.today ts store).2.nextId)
      (bkOf (find_or_create_slot svcname clock.today ts store).2
        (find_or_create_slot svcname clock.today ts store).1
        svcname "jane doe".data "9876543210".data) = _
    rw [hfbk, hbk]
    rfl
  · obtain ⟨z, hz, hpz, hfz⟩ := mapFirst_flip_mem
      (p := fun x => x.slot_id == (find_or_create_slot svcname clock.today ts store).1.slot_id)
      (f := fun x => { x with available := false }) hfm (by simp)
    refine ⟨{ z with available := false }, hfz, ?_, rfl⟩
    simpa using hpz

theorem c2_step2 (clock : Clock) (store : DataStore) (sid : String) (svc : Service)
    (hsvcs : store.services = defaultServices) (hsvc : svc ∈ defaultServices) :
    (process_message clock { store := store, sessions :=
      [(sid, ⟨emptyCtx, some "book_slot", "selecting_service"⟩)] } svc.name sid).1 =
    { store := store, sessions := [(sid, ⟨⟨some svc.name, none, none, none⟩,
      some (classify_intent (preprocess_text svc.name)).1, "selecting_time_slot"⟩)] } := by
  rw [c2_pm_mid clock store svc.name sid ⟨emptyCtx, some "book_slot", "selecting_service"⟩
    (by decide)]
  rw [hb_select_service clock store ⟨emptyCtx, some "book_slot", "selecting_service"⟩
    svc rfl hsvcs hsvc]
  rfl

theorem c2_step3 (clock : Clock) (store : DataStore) (sid : String) (svc : Service) (ts : Str)
    (hts : ts ∈ get_available_time_slots) :
    (process_message clock { store := store, sessions :=
      [(sid, ⟨⟨some svc.name, none, none, none⟩,
        some (classify_intent (preprocess_text svc.name)).1, "selecting_time_slot"⟩)] }
      ts sid).1 =
    { store := store, sessions := [(sid, ⟨⟨some svc.name, some ts, none, none⟩,
      some (classify_intent (preprocess_text ts)).1, "selecting_staff"⟩)] } := by
  rw [c2_pm_mid clock store ts sid ⟨⟨some svc.name, none, none, none⟩,
    some (classify_intent (preprocess_text svc.name)).1, "selecting_time_slot"⟩
    (show ("selecting_time_slot" : String) ∈ midFlowStates by decide)]
  rw [hb_select_time clock store ⟨⟨some svc.name, none, none, none⟩,
    some (classify_intent (preprocess_text svc.name)).1, "selecting_time_slot"⟩ ts rfl hts]
 

theorem c2_step4 (clock : Clock) (store : DataStore) (sid : String) (svc : Service) (ts : Str) :
    (process_message clock { store := store, sessions :=
      [(sid, ⟨⟨some svc.name, some ts, none, none⟩,
        some (classify_intent (preprocess_text ts)).1, "selecting_staff"⟩)] }
      "any".data sid).1 =
    { store := store, sessions :=
      [(sid, ⟨⟨some svc.name, some ts, some "Any Available Staff".data, none⟩,
        some (classify_intent (preprocess_text "any".data)).1, "showing_details"⟩)] } := by
  rw [c2_pm_mid clock store "any".data sid ⟨⟨some svc.name, some ts, none, none⟩,
    some (classify_intent (preprocess_text ts)).1, "selecting_staff"⟩
    (show ("selecting_staff" : String) ∈ midFlowStates by decide)]
  rw [hb_staff_any clock store ⟨⟨some svc.name, some ts, none, none⟩,
    some (classify_intent (preprocess_text ts)).1, "selecting_staff"⟩ rfl]
 

theorem c2_step5 (clock : Clock) (store : DataStore) (sid : String) (svc : Service) (ts : Str) :
    (process_message clock { store := store, sessions :=
      [(sid, ⟨⟨some svc.name, some ts, some "Any Available Staff".data, none⟩,
        some (classify_intent (preprocess_text "any".data)).1, "showing_details"⟩)] }
      "confirm".data sid).1 =
    { store := store, sessions :=
      [(sid, ⟨⟨some svc.name, some ts, some "Any Available Staff".data, none⟩,
        some (classify_intent (preprocess_text "confirm".data)).1,
        "awaiting_customer_details"⟩)] } := by
  rw [c2_pm_mid clock store "confirm".data sid
    ⟨⟨some svc.name, some ts, some "Any Available Staff".data, none⟩,
      some (classify_intent (preprocess_text "any".data)).1, "showing_details"⟩
    (show ("showing_details" : String) ∈ midFlowStates by decide)]
  rw [hb_confirm clock store
    ⟨⟨some svc.name, some ts, some "Any Available Staff".data, none⟩,
      some (classify_intent (preprocess_text "any".data)).1, "showing_details"⟩ rfl]
 

/-- Claim C2: from a fresh store and a fresh session, the message sequence
"book" → a listed service name → a listed time slot → "any" → "confirm" →
"Jane Doe, 9876543210" ends with the session in state `booking_complete`,
a booking with status "confirmed" in the store, and the booked slot's
`available` field set to `false`. -/
theorem booking_round_trip (clock : Clock) (store : DataStore) (sid : String)
    (svc : Service) (ts : Str)
    (hfresh : isFreshStore store)
    (hsvc : svc ∈ get_services store)
    (hts : ts ∈ get_available_time_slots)
    (hdate : (clock.today.filter (fun c => !(c == '-'))).length = 8) :
    ∃ sess b,
      (runMessages clock { store := store, sessions := [] }
        [("book".data, sid), (svc.name, sid), (ts, sid), ("any".data, sid),
         ("confirm".data, sid), ("Jane Doe, 9876543210".data, sid)]).sessions = [(sid, sess)] ∧
      sess.conversation_state = "booking_complete" ∧
      b.status = "confirmed" ∧
      get_booking b.booking_id (runMessages clock { store := store, sessions := [] }
        [("book".data, sid), (svc.name, sid), (ts, sid), ("any".data, sid),
         ("confirm".data, sid), ("Jane Doe, 9876543210".data, sid)]).store = some b ∧
      ∃ z ∈ (runMessages clock { store := store, sessions := [] }
        [("book".data, sid), (svc.name, sid), (ts, sid), ("any".data, sid),
         ("confirm".data, sid), ("Jane Doe, 9876543210".data, sid)]).store.slots,
        z.slot_id = b.slot_id ∧ z.available = false := by
  obtain ⟨hsvcs, hbk, hnx, hav, hnd⟩ := hfresh
  have hsvc2 : svc ∈ defaultServices := by
    rw [get_services, hsvcs] at hsvc
    exact hsvc
  have hfindsome : (store.services.find? (fun sv => sv.name == svc.name)).isSome := by
    rw [hsvcs]
    exact List.find?_isSome.mpr ⟨svc, hsvc2, by simp⟩
  obtain ⟨sd, hfind⟩ := Option.isSome_iff_exists.mp hfindsome
  simp only [runMessages]
  rw [c2_step1, c2_step2 clock store sid svc hsvcs hsvc2, c2_step3 clock store sid svc ts hts,
    c2_step4, c2_step5]
  rw [c2_pm_mid clock store "Jane Doe, 9876543210".data sid
    ⟨⟨some svc.name, some ts, some "Any Available Staff".data, none⟩,
      some (classify_intent (preprocess_text "confirm".data)).1, "awaiting_customer_details"⟩
    (show ("awaiting_customer_details" : String) ∈ midFlowStates by decide)]
  obtain ⟨b, h1, h2, h3, z, hz, hz1, hz2⟩ := hb_details clock store
    ⟨⟨some svc.name, some ts, some "Any Available Staff".data, none⟩,
      some (classify_intent (preprocess_text "confirm".data)).1, "awaiting_customer_details"⟩
    svc.name ts sd rfl rfl rfl hfind hbk hav hnd hdate
  exact ⟨_, b, rfl, h1, h2, h3, z, hz, hz1, hz2⟩

/-- The concrete service used by the C2 witness run. -/
def c2WSvc : Service :=
  { sid := "hairwash", name := "Hair Wash".data,
    description := "Professional hair washing and conditioning service".data,
    duration := "30 minutes".data, price := "₹300".data }

/-- Witness for C2: the round trip at a concrete fresh store, service and slot. -/
theorem booking_round_trip_w :
    isFreshStore sampleFreshStore ∧
    c2WSvc ∈ get_services sampleFreshStore ∧
    "10:00 AM".data ∈ get_available_time_slots ∧
    (sampleClock.today.filter (fun c => !(c == '-'))).length = 8 ∧
    (∃ sess b,
      (runMessages sampleClock { store := sampleFreshStore, sessions := [] }
        [("book".data, "s1"), (c2WSvc.name, "s1"), ("10:00 AM".data, "s1"), ("any".data, "s1"),
         ("confirm".data, "s1"), ("Jane Doe, 9876543210".data, "s1")]).sessions =
        [("s1", sess)] ∧
      sess.conversation_state = "booking_complete" ∧
      b.status = "confirmed" ∧
      get_booking b.booking_id (runMessages sampleClock
        { store := sampleFreshStore, sessions := [] }
        [("book".data, "s1"), (c2WSvc.name, "s1"), ("10:00 AM".data, "s1"), ("any".data, "s1"),
         ("confirm".data, "s1"), ("Jane Doe, 9876543210".data, "s1")]).store = some b ∧
      ∃ z ∈ (runMessages sampleClock { store := sampleFreshStore, sessions := [] }
        [("book".data, "s1"), (c2WSvc.name, "s1"), ("10:00 AM".data, "s1"), ("any".data, "s1"),
         ("confirm".data, "s1"), ("Jane Doe, 9876543210".data, "s1")]).store.slots,
        z.slot_id = b.slot_id ∧ z.available = false) :=
  ⟨by decide, by decide, by decide, by decide,
   booking_round_trip sampleClock sampleFreshStore "s1" c2WSvc "10:00 AM".data
     (by decide) (by decide) (by decide) (by decide)⟩

/-! ## C4 / C9: bounds on classifier confidences -/

theorem subB_cons {p : Str} {c : Char} {t : Str} (h : subB p t = true) :
    subB p (c :: t) = true := by
  simp only [subB, Bool.or_eq_true]
  exact Or.inr h

theorem countAux_sub {pats : List Str} :
    ∀ (s : Str) (k : Nat) (prev : Option Char), countAux pats k prev s ≠ 0 →
      ∃ p ∈ pats, subB p s = true := by
  intro s
  induction s with
  | nil => intro k prev h; cases k <;> exact absurd rfl h
  | cons c t ih =>
    intro k prev h
    cases k with
    | succ k =>
      obtain ⟨p, hp, hs⟩ := ih k prev h
      exact ⟨p, hp, subB_cons hs⟩
    | zero =>
      rw [countAux] at h
      cases hm : altMatchAt pats prev (c :: t) with
      | some p =>
        have hmem := List.mem_of_find?_eq_some hm
        have hpred := List.find?_some hm
        simp only [Bool.and_eq_true] at hpred
        refine ⟨p, hmem, ?_⟩
        simp only [subB, Bool.or_eq_true]
        exact Or.inl hpred.1.1.2
      | none =>
        rw [hm] at h
        obtain ⟨p, hp, hs⟩ := ih 0 (some c) h
        exact ⟨p, hp, subB_cons hs⟩

theorem countMatches_sub {pats : List Str} {prev : Option Char} {s : Str}
    (h : countMatches pats prev s ≠ 0) : ∃ p ∈ pats, subB p s = true :=
  countAux_sub s 0 prev h

/-- All stored scores lie in `[1/2, 1]`. -/
def scBnd (sc : List (String × ℚ)) : Prop := ∀ e ∈ sc, 1/2 ≤ e.2 ∧ e.2 ≤ 1

theorem scBnd_setSc {sc : List (String × ℚ)} {k : String} {v : ℚ}
    (h : scBnd sc) (hv : 1/2 ≤ v ∧ v ≤ 1) : scBnd (setSc sc k v) := by
  intro e he
  unfold setSc at he
  split at he
  · obtain ⟨a, ha, hae⟩ := List.mem_map.mp he
    by_cases hk : (a.1 == k) = true
    · rw [if_pos hk] at hae
      rw [← hae]
      exact hv
    · rw [if_neg hk] at hae
      rw [← hae]
      exact h a ha
  · rcases List.mem_append.mp he with h1 | h1
    · exact h e h1
    · rw [List.mem_singleton.mp h1]
      exact hv

theorem lookupSc_bnd {sc : List (String × ℚ)} {k : String} (h : scBnd sc) :
    ((lookupSc sc k).getD 0) ≤ 1 := by
  unfold lookupSc
  cases hf : sc.find? (fun e => e.1 == k) with
  | none => exact (show (0:ℚ) ≤ 1 by norm_num)
  | some e => exact (h e (List.mem_of_find?_eq_some hf)).2

theorem scBnd_setMax {sc : List (String × ℚ)} {k : String} {v : ℚ}
    (hv1 : 1/2 ≤ v) (hv2 : v ≤ 1) (h : scBnd sc) : scBnd (setMax sc k v) := by
  unfold setMax
  refine scBnd_setSc h ⟨le_trans hv1 (le_max_right _ _), ?_⟩
  exact max_le (lookupSc_bnd h) hv2

theorem scBnd_polite {sc : List (String × ℚ)} (h : scBnd sc) :
    scBnd (sc.map (fun e => (e.1, min (e.2 + 1 / 10) 1))) := by
  intro e he
  obtain ⟨a, ha, hae⟩ := List.mem_map.mp he
  obtain ⟨h1, h2⟩ := h a ha
  rw [← hae]
  constructor
  · refine le_min ?_ (by norm_num)
    linarith
  · exact min_le_right _ _

theorem scBnd_baseAux (text : Str) (l : List (String × List Str)) :
    ∀ acc : List (String × ℚ), scBnd acc →
      scBnd (l.foldl (fun acc pr =>
        let m := countMatches pr.2 none text
        if m = 0 then acc
        else
          let base : ℚ := (m : ℚ) * (3 / 10) +
            ((pr.2.countP (fun p => subB p text)) : ℚ) * (4 / 10)
          let pen : ℚ := min (((splitWS text).length : ℚ) / 20) (2 / 10)
          setSc acc pr.1 (min (base - pen) 1)) acc) := by
  induction l with
  | nil => intro acc h; exact h
  | cons pr rest ih =>
    intro acc h
    rw [List.foldl_cons]
    apply ih
    by_cases hm : countMatches pr.2 none text = 0
    · simp only [hm, if_pos]
      exact h
    · rw [if_neg hm]
      apply scBnd_setSc h
      obtain ⟨p, hp, hsub⟩ := countMatches_sub hm
      have hc : 1 ≤ pr.2.countP (fun p => subB p text) :=
        List.countP_pos_iff.mpr ⟨p, hp, hsub⟩
      have hm1 : 1 ≤ countMatches pr.2 none text := Nat.one_le_iff_ne_zero.mpr hm
      have hmq : (1 : ℚ) ≤ (countMatches pr.2 none text : ℚ) := by exact_mod_cast hm1
      have hcq : (1 : ℚ) ≤ ((pr.2.countP (fun p => subB p text)) : ℚ) := by exact_mod_cast hc
      have hpen : min (((splitWS text).length : ℚ) / 20) (2 / 10) ≤ 2 / 10 :=
        min_le_right _ _
      constructor
      · refine le_min ?_ (by norm_num)
        nlinarith
      · exact min_le_right _ _

theorem scBnd_base (text : Str) : scBnd (baseScores text) := by
  unfold baseScores
  exact scBnd_baseAux text intentTable [] (fun e he => absurd he (List.not_mem_nil e))

theorem scBnd_stage1 (text : Str) (s : List (String × ℚ)) (h : scBnd s) :
    scBnd (if (splitWS text).length ≤ 3 && anySub greetingWords text then
      setMax s "greeting" (8 / 10) else s) := by
  split_ifs <;> first
    | exact scBnd_setMax (by norm_num) (by norm_num) h
    | exact h

theorem scBnd_stage2 (text : Str) (s : List (String × ℚ)) (h : scBnd s) :
    scBnd (if anySub questionWords text then
      (if subB "services".data text || subB "offer".data text then
        setMax s "services" (7 / 10)
      else if subB "contact".data text || subB "reach".data text || subB "phone".data text then
        setMax s "contact_info" (7 / 10)
      else if subB "slots".data text || subB "available".data text then
        setMax s "available_slots" (7 / 10)
      else if subB "broadcast".data text || subB "latest".data text then
        setMax s "slot_broadcast" (7 / 10)
      else if subB "upcoming".data text || subB "events".data text ||
          subB "bookings".data text then
        setMax s "upcoming_events" (7 / 10)
      else s)
    else s) := by
  split_ifs <;> first
    | exact scBnd_setMax (by norm_num) (by norm_num) h
    | exact h

theorem scBnd_stage3 (text : Str) (s : List (String × ℚ)) (h : scBnd s) :
    scBnd (if searchSlotW text || searchSLd text || searchBookW text then
      setMax s "book_slot" (8 / 10) else s) := by
  split_ifs <;> first
    | exact scBnd_setMax (by norm_num) (by norm_num) h
    | exact h

theorem scBnd_stage4 (text : Str) (s : List (String × ℚ)) (h : scBnd s) :
    scBnd (if subB "today".data text || subB "tomorrow".data text ||
        subB "next week".data text || subB "this week".data text ||
        digitSepDigit '/' text || digitSepDigit '-' text then
      (if subB "book".data text then setMax s "book_slot" (7 / 10)
       else setMax s "available_slots" (6 / 10))
    else s) := by
  split_ifs <;> first
    | exact scBnd_setMax (by norm_num) (by norm_num) h
    | exact h

theorem scBnd_stage5 (text : Str) (s : List (String × ℚ)) (h : scBnd s) :
    scBnd (if anySub broadcastTerms text then setMax s "slot_broadcast" (8 / 10) else s) := by
  split_ifs <;> first
    | exact scBnd_setMax (by norm_num) (by norm_num) h
    | exact h

theorem scBnd_stage6 (text : Str) (s : List (String × ℚ)) (h : scBnd s) :
    scBnd (if anySub upcomingTerms text then setMax s "upcoming_events" (8 / 10) else s) := by
  split_ifs <;> first
    | exact scBnd_setMax (by norm_num) (by norm_num) h
    | exact h

theorem scBnd_stage7 (text : Str) (s : List (String × ℚ)) (h : scBnd s) :
    scBnd (if anySub politeWords text then
      s.map (fun e => (e.1, min (e.2 + 1 / 10) 1)) else s) := by
  split_ifs <;> first
    | exact scBnd_polite h
    | exact h

theorem scBnd_special (text : Str) {sc : List (String × ℚ)} (h : scBnd sc) :
    scBnd (apply_special_rules text sc) := by
  unfold apply_special_rules
  exact scBnd_stage7 text _ (scBnd_stage6 text _ (scBnd_stage5 text _ (scBnd_stage4 text _
    (scBnd_stage3 text _ (scBnd_stage2 text _ (scBnd_stage1 text _ h))))))

theorem maxScore_mem : ∀ {l : List (String × ℚ)} {b : String × ℚ},
    maxScore l = some b → b ∈ l := by
  intro l
  induction l with
  | nil => intro b h; cases h
  | cons e rest ih =>
    intro b h
    unfold maxScore at h
    cases hm : maxScore rest with
    | none =>
      rw [hm] at h
      cases h
      exact List.mem_cons_self e rest
    | some m =>
      rw [hm] at h
      rw [Option.some.injEq] at h
      by_cases hlt : e.2 < m.2
      · rw [if_pos hlt] at h
        exact List.mem_cons_of_mem e (ih (h ▸ hm))
      · rw [if_neg hlt] at h
        rw [← h]
        exact List.mem_cons_self e rest

/-- Claim C4: for every input string, `classify_intent` returns a confidence in
`[0, 1]`; in particular no negative score is ever returned, including on the
below-threshold path that returns the best raw score with the fallback
intent. -/
theorem classify_intent_confidence_in_unit (text : Str) :
    0 ≤ (classify_intent text).2 ∧ (classify_intent text).2 ≤ 1 := by
  simp only [classify_intent]
  split_ifs with hempty
  · exact ⟨by norm_num, by norm_num⟩
  · cases hm : maxScore (apply_special_rules (stripWS (lowerStr text))
        (baseScores (stripWS (lowerStr text)))) with
    | none => exact ⟨le_refl 0, by norm_num⟩
    | some best =>
      have hb := scBnd_special (stripWS (lowerStr text))
        (scBnd_base (stripWS (lowerStr text))) best (maxScore_mem hm)
      by_cases hlt : best.2 < 1/5
      · show 0 ≤ (if best.2 < 1/5 then (("fallback" : String), best.2) else best).2 ∧
          (if best.2 < 1/5 then (("fallback" : String), best.2) else best).2 ≤ 1
        rw [if_pos hlt]
        exact ⟨by show (0:ℚ) ≤ best.2; linarith [hb.1], hb.2⟩
      · show 0 ≤ (if best.2 < 1/5 then (("fallback" : String), best.2) else best).2 ∧
          (if best.2 < 1/5 then (("fallback" : String), best.2) else best).2 ≤ 1
        rw [if_neg hlt]
        exact ⟨by linarith [hb.1], hb.2⟩

/-- Claim C9: the confidence is 0 (no scored intent) or at least 1/2; every
score stored by the pattern loop and the special rules lies in `[1/2, 1]`, so
the branch returning `fallback` for a best score below `1/5` is unreachable. -/
theorem classify_intent_confidence_floor (text : Str) :
    ((classify_intent text).2 = 0 ∨ 1/2 ≤ (classify_intent text).2) ∧
    (∀ e ∈ apply_special_rules (stripWS (lowerStr text))
        (baseScores (stripWS (lowerStr text))), 1/2 ≤ e.2 ∧ e.2 ≤ 1) ∧
    (∀ b, maxScore (apply_special_rules (stripWS (lowerStr text))
        (baseScores (stripWS (lowerStr text)))) = some b → ¬ b.2 < 1/5) := by
  have hbd := scBnd_special (stripWS (lowerStr text)) (scBnd_base (stripWS (lowerStr text)))
  refine ⟨?_, hbd, ?_⟩
  · unfold classify_intent
    split_ifs with hempty
    · right
      show (1:ℚ)/2 ≤ 1/2
      norm_num
    · show ((match maxScore (apply_special_rules (stripWS (lowerStr text))
            (baseScores (stripWS (lowerStr text)))) with
          | none => (("fallback" : String), (0:ℚ))
          | some best => if best.2 < 1/5 then ("fallback", best.2) else best)).2 = (0:ℚ) ∨
        (1:ℚ)/2 ≤ ((match maxScore (apply_special_rules (stripWS (lowerStr text))
            (baseScores (stripWS (lowerStr text)))) with
          | none => (("fallback" : String), (0:ℚ))
          | some best => if best.2 < 1/5 then ("fallback", best.2) else best)).2
      cases hm : maxScore (apply_special_rules (stripWS (lowerStr text))
          (baseScores (stripWS (lowerStr text)))) with
      | none => left; rfl
      | some best =>
        right
        have hb := hbd best (maxScore_mem hm)
        by_cases hlt : best.2 < 1/5
        · show 1/2 ≤ (if best.2 < 1/5 then (("fallback" : String), best.2) else best).2
          rw [if_pos hlt]
          exact hb.1
        · show 1/2 ≤ (if best.2 < 1/5 then (("fallback" : String), best.2) else best).2
          rw [if_neg hlt]
          exact hb.1
  · intro b hmb hlt
    have hb := hbd b (maxScore_mem hmb)
    have := hb.1
    rw [show (1:ℚ)/5 = 2/10 by norm_num] at hlt
    linarith

/-! ## C8: idempotence of the text normalizer -/

theorem pfxB_subB {k s : Str} (h : pfxB k s = true) : subB k s = true := by
  cases s with
  | nil => exact h
  | cons c t =>
    simp only [subB, Bool.or_eq_true]
    exact Or.inl h

theorem pfx_drop_subB {k s : Str} : ∀ {j : Nat}, pfxB k (s.drop j) = true → subB k s = true := by
  induction s with
  | nil =>
    intro j h
    rw [List.drop_nil] at h
    exact h
  | cons c t ih =>
    intro j h
    cases j with
    | zero => exact pfxB_subB h
    | succ j =>
      rw [List.drop_succ_cons] at h
      simp only [subB, Bool.or_eq_true]
      exact Or.inr (ih h)

theorem subB_drop_false {k s : Str} (h : subB k s = false) (j : Nat) :
    subB k (s.drop j) = false := by
  induction s generalizing j with
  | nil => rw [List.drop_nil]; exact h
  | cons c t ih =>
    cases j with
    | zero => exact h
    | succ j =>
      rw [List.drop_succ_cons]
      simp only [subB, Bool.or_eq_false_iff] at h
      exact ih h.2 j

theorem subB_cons_false {k : Str} {c : Char} {t : Str} (h : subB k (c :: t) = false) :
    pfxB k (c :: t) = false ∧ subB k t = false := by
  simp only [subB, Bool.or_eq_false_iff] at h
  exact h

theorem subB_append_false {k a b : Str}
    (h0 : ∀ j, j < a.length → pfxB k (a.drop j ++ b) = false)
    (hb : subB k b = false) : subB k (a ++ b) = false := by
  induction a with
  | nil => exact hb
  | cons x xs ih =>
    simp only [List.cons_append, subB, Bool.or_eq_false_iff]
    constructor
    · have := h0 0 (Nat.zero_lt_succ _)
      rw [List.drop_zero] at this
      exact this
    · exact ih (fun j hj => by
        have := h0 (j + 1) (Nat.succ_lt_succ hj)
        rw [List.drop_succ_cons] at this
        exact this)

theorem pfxB_append_split {x : Str} : ∀ {k y : Str}, pfxB k (x ++ y) = true →
    pfxB k x = true ∨ (pfxB x k = true ∧ pfxB (k.drop x.length) y = true) := by
  induction x with
  | nil =>
    intro k y h
    exact Or.inr ⟨rfl, h⟩
  | cons a xs ih =>
    intro k y h
    cases k with
    | nil => exact Or.inl rfl
    | cons b ks =>
      simp only [List.cons_append, pfxB, Bool.and_eq_true] at h
      rcases ih h.2 with h2 | ⟨h2, h3⟩
      · exact Or.inl (by simp only [pfxB, Bool.and_eq_true]; exact ⟨h.1, h2⟩)
      · refine Or.inr ⟨?_, ?_⟩
        · simp only [pfxB, Bool.and_eq_true]
          exact ⟨by rw [beq_iff_eq] at h ⊢; exact h.1.symm, h2⟩
        · simpa using h3

theorem replAux_skip (pat r : Str) : ∀ (j : Nat) (t : Str),
    replAux pat r j t = replAux pat r 0 (t.drop j) := by
  intro j
  induction j with
  | zero => intro t; rw [List.drop_zero]
  | succ j ih =>
    intro t
    cases t with
    | nil => rfl
    | cons c t =>
      rw [List.drop_succ_cons, ← ih t]
      rfl

/-- Junction conditions making pattern `k` impossible to (re)create around a
replacement of `pat` by `r`: `k` is not inside `r`, `r` is not inside `k`, no
occurrence of `k` can start strictly inside `r`, and a proper tail of `k` that
starts `r` also starts `pat` (so the occurrence was already in the input). -/
def pairOK (pat k r : Str) : Bool :=
  !subB k r && !subB r k &&
  ((List.range r.length).all fun j => j == 0 || !pfxB (r.drop j) k) &&
  ((List.range k.length).all fun i => i == 0 || !pfxB (k.drop i) r || pfxB (k.drop i) pat)

theorem pairOK_spec {pat k r : Str} (h : pairOK pat k r = true) :
    subB k r = false ∧ subB r k = false ∧
    (∀ j, 0 < j → j < r.length → pfxB (r.drop j) k = false) ∧
    (∀ i, 0 < i → i < k.length →
      pfxB (k.drop i) r = false ∨ pfxB (k.drop i) pat = true) := by
  unfold pairOK at h
  simp only [Bool.and_eq_true, List.all_eq_true, List.mem_range, Bool.or_eq_true,
    beq_iff_eq, Bool.not_eq_true'] at h
  obtain ⟨⟨⟨h1, h2⟩, h3⟩, h4⟩ := h
  refine ⟨h1, h2, ?_, ?_⟩
  · intro j hj hlt
    rcases h3 j hlt with h | h
    · omega
    · exact h
  · intro i hi hlt
    rcases h4 i hlt with (h | h) | h
    · omega
    · exact Or.inl h
    · exact Or.inr h

theorem pfxB_trans {a b c : Str} (h1 : pfxB a b = true) (h2 : pfxB b c = true) :
    pfxB a c = true := by
  rw [pfxB_iff] at h1 h2 ⊢
  exact h1.trans h2

theorem drop_tail_succ {k : Str} {i : Nat} {a : Char} {w : Str}
    (hw : k.drop i = a :: w) : k.drop (i + 1) = w := by
  have h1 : List.drop 1 (List.drop i k) = List.drop (i + 1) k := List.drop_drop 1 i k
  rw [hw] at h1
  exact h1.symm

theorem drop_ne_nil_of_lt {k : Str} {i : Nat} (h : i < k.length) : k.drop i ≠ [] := by
  simp only [ne_eq, List.drop_eq_nil_iff]
  omega

/-- A nonempty proper tail of `k` that is a prefix of the scan output is a
prefix of the scan input. -/
theorem repl_tail_pfx {pat k r : Str}
    (hd : ∀ i, 0 < i → i < k.length →
      pfxB (k.drop i) r = false ∨ pfxB (k.drop i) pat = true)
    (hrk : subB r k = false) :
    ∀ (s : Str) (i : Nat), 0 < i → i < k.length →
      pfxB (k.drop i) (replAux pat r 0 s) = true → pfxB (k.drop i) s = true := by
  intro s
  induction s with
  | nil =>
    intro i h0 hlen h
    cases hw : k.drop i with
    | nil => exact absurd hw (drop_ne_nil_of_lt hlen)
    | cons a w => rw [hw] at h; exact absurd h (by simp [pfxB])
  | cons c t ih =>
    intro i h0 hlen h
    rw [replAux] at h
    split at h
    · rename_i hcond
      rcases pfxB_append_split h with h2 | ⟨h2, h3⟩
      · rcases hd i h0 hlen with hfalse | hpat2
        · rw [hfalse] at h2
          cases h2
        · exact pfxB_trans hpat2 hcond.2
      · exfalso
        have : subB r k = true := pfx_drop_subB h2
        rw [hrk] at this
        cases this
    · cases hw : k.drop i with
      | nil => exact absurd hw (drop_ne_nil_of_lt hlen)
      | cons a w =>
        rw [hw] at h
        simp only [pfxB, Bool.and_eq_true] at h
        cases w with
        | nil =>
          simp only [pfxB, Bool.and_eq_true]
          exact ⟨h.1, trivial⟩
        | cons b w2 =>
          have hw1 : k.drop (i + 1) = b :: w2 := drop_tail_succ hw
          have hlen1 : i + 1 < k.length := by
            by_contra hc
            have hnil : k.drop (i + 1) = [] := by
              simp only [List.drop_eq_nil_iff]
              omega
            rw [hw1] at hnil
            cases hnil
          have hrec := ih (i + 1) (Nat.succ_pos i) hlen1 (by rw [hw1]; exact h.2)
          rw [hw1] at hrec
          simp only [pfxB, Bool.and_eq_true]
          exact ⟨h.1, hrec⟩

theorem repl_junction_false {k r out : Str} (hkr : subB k r = false) (hrk : subB r k = false)
    (hc : ∀ j, 0 < j → j < r.length → pfxB (r.drop j) k = false) :
    ∀ j, j < r.length → pfxB k (r.drop j ++ out) = false := by
  intro j hj
  by_contra hcon
  rw [Bool.not_eq_false] at hcon
  rcases pfxB_append_split hcon with h2 | ⟨h2, h3⟩
  · have := pfx_drop_subB h2
    rw [hkr] at this
    cases this
  · cases Nat.eq_zero_or_pos j with
    | inl hj0 =>
      subst hj0
      rw [List.drop_zero] at h2
      have := pfxB_subB h2
      rw [hrk] at this
      cases this
    | inr hjpos =>
      rw [hc j hjpos hj] at h2
      cases h2

/-- After `s.replace(k, r)` the pattern `k` does not occur, provided `k` has no
junction overlap with `r` (in particular the source's contraction pairs). -/
theorem repl_self_free {k r : Str} (hk : k ≠ []) (hok : pairOK k k r = true) :
    ∀ (n : Nat) (s : Str), s.length ≤ n → subB k (replaceAll k r s) = false := by
  obtain ⟨hkr, hrk, hc, hd⟩ := pairOK_spec hok
  intro n
  induction n with
  | zero =>
    intro s hs
    have : s = [] := List.eq_nil_of_length_eq_zero (Nat.le_zero.mp hs)
    subst this
    cases k with
    | nil => exact absurd rfl hk
    | cons a k2 => rfl
  | succ n ih =>
    intro s hs
    cases s with
    | nil =>
      cases k with
      | nil => exact absurd rfl hk
      | cons a k2 => rfl
    | cons c t =>
      unfold replaceAll replAux
      split
      · rename_i hcond
        rw [replAux_skip]
        apply subB_append_false
        · exact repl_junction_false hkr hrk hc
        · exact ih (t.drop (k.length - 1)) (by
            have := List.length_drop (k.length - 1) t
            have ht : t.length ≤ n := by
              have := hs
              simp only [List.length_cons] at this
              omega
            omega)
      · rename_i hcond
        have hnm : pfxB k (c :: t) = false := by
          rw [Decidable.not_and_iff_or_not] at hcond
          rcases hcond with h | h
          · exact absurd (not_not.mp h) hk
          · simpa using h
        simp only [subB, Bool.or_eq_false_iff]
        constructor
        · by_contra hcon
          rw [Bool.not_eq_false] at hcon
          cases hkk : k with
          | nil => exact absurd hkk hk
          | cons a k2 =>
            rw [hkk] at hcon
            simp only [pfxB, Bool.and_eq_true] at hcon
            cases k2 with
            | nil =>
              rw [hkk] at hnm
              simp only [pfxB, Bool.and_eq_true] at hnm
              simp [hcon.1] at hnm
            | cons b k3 =>
              have h1 : k.drop 1 = b :: k3 := by rw [hkk]; rfl
              have hlen1 : 1 < k.length := by rw [hkk]; simp
              rw [← hkk] at hcon
              have := repl_tail_pfx hd hrk t 1 Nat.one_pos hlen1
                (by rw [h1]; exact hcon.2)
              rw [h1] at this
              rw [hkk] at hnm
              simp only [pfxB, Bool.and_eq_true] at hnm
              simp [hcon.1, this] at hnm
        · exact ih t (by
            have := hs
            simp only [List.length_cons] at this
            omega)

/-- `s.replace(pat, r)` cannot (re)introduce a pattern `k` that is absent from
`s`, provided `k` has no junction overlap with `r`. -/
theorem repl_other_free {pat k r : Str} (hk : k ≠ []) (hok : pairOK pat k r = true) :
    ∀ (n : Nat) (s : Str), s.length ≤ n → subB k s = false →
      subB k (replaceAll pat r s) = false := by
  obtain ⟨hkr, hrk, hc, hd⟩ := pairOK_spec hok
  intro n
  induction n with
  | zero =>
    intro s hs habs
    have : s = [] := List.eq_nil_of_length_eq_zero (Nat.le_zero.mp hs)
    subst this
    exact habs
  | succ n ih =>
    intro s hs habs
    cases s with
    | nil => exact habs
    | cons c t =>
      obtain ⟨hnm, htail⟩ := subB_cons_false habs
      unfold replaceAll replAux
      split
      · rename_i hcond
        rw [replAux_skip]
        apply subB_append_false
        · exact repl_junction_false hkr hrk hc
        · refine ih (t.drop (pat.length - 1)) ?_ (subB_drop_false htail _)
          have := List.length_drop (pat.length - 1) t
          have ht : t.length ≤ n := by
            have := hs
            simp only [List.length_cons] at this
            omega
          omega
      · simp only [subB, Bool.or_eq_false_iff]
        constructor
        · by_contra hcon
          rw [Bool.not_eq_false] at hcon
          cases hkk : k with
          | nil => exact absurd hkk hk
          | cons a k2 =>
            rw [hkk] at hcon
            simp only [pfxB, Bool.and_eq_true] at hcon
            cases k2 with
            | nil =>
              rw [hkk] at hnm
              simp only [pfxB, Bool.and_eq_true] at hnm
              simp [hcon.1] at hnm
            | cons b k3 =>
              have h1 : k.drop 1 = b :: k3 := by rw [hkk]; rfl
              have hlen1 : 1 < k.length := by rw [hkk]; simp
              have := repl_tail_pfx hd hrk t 1 Nat.one_pos hlen1
                (by rw [h1]; exact hcon.2)
              rw [h1] at this
              rw [hkk] at hnm
              simp only [pfxB, Bool.and_eq_true] at hnm
              simp [hcon.1, this] at hnm
        · exact ih t (by
            have := hs
            simp only [List.length_cons] at this
            omega) htail

/-- If the pattern does not occur, `replace` is the identity. -/
theorem replaceAll_id {pat r : Str} : ∀ (s : Str), subB pat s = false →
    replaceAll pat r s = s := by
  intro s
  induction s with
  | nil => intro h; rfl
  | cons c t ih =>
    intro h
    obtain ⟨hnm, htail⟩ := subB_cons_false h
    unfold replaceAll replAux
    split
    · rename_i hcond
      rw [hcond.2] at hnm
      cases hnm
    · exact congrArg (c :: ·) (ih htail)

theorem subB_trans {a b s : Str} (hab : subB a b = true) (hbs : subB b s = true) :
    subB a s = true := by
  rw [subB_iff] at hab hbs ⊢
  exact hab.trans hbs

/-- None of the seven contraction keys (the other two contain `n't`) occurs in
the output of `expand_contractions`. -/
theorem expand_free_keys (s : Str) :
    subB ['n', apos, 't'] (expand_contractions s) = false ∧
    subB [apos, 'r', 'e'] (expand_contractions s) = false ∧
    subB [apos, 'v', 'e'] (expand_contractions s) = false ∧
    subB [apos, 'l', 'l'] (expand_contractions s) = false ∧
    subB [apos, 'd'] (expand_contractions s) = false ∧
    subB [apos, 'm'] (expand_contractions s) = false ∧
    subB ['l', 'e', 't', apos, 's'] (expand_contractions s) = false := by
  simp only [expand_contractions, contractions, List.foldl_cons, List.foldl_nil]
  refine ⟨?_, ?_, ?_, ?_, ?_, ?_, ?_⟩
  · exact repl_other_free (by decide) (by decide) _ _ le_rfl
      (repl_other_free (by decide) (by decide) _ _ le_rfl
      (repl_other_free (by decide) (by decide) _ _ le_rfl
      (repl_other_free (by decide) (by decide) _ _ le_rfl
      (repl_other_free (by decide) (by decide) _ _ le_rfl
      (repl_other_free (by decide) (by decide) _ _ le_rfl
      (repl_self_free (by decide) (by decide) _ _ le_rfl))))))
  · exact repl_other_free (by decide) (by decide) _ _ le_rfl
      (repl_other_free (by decide) (by decide) _ _ le_rfl
      (repl_other_free (by decide) (by decide) _ _ le_rfl
      (repl_other_free (by decide) (by decide) _ _ le_rfl
      (repl_other_free (by decide) (by decide) _ _ le_rfl
      (repl_self_free (by decide) (by decide) _ _ le_rfl)))))
  · exact repl_other_free (by decide) (by decide) _ _ le_rfl
      (repl_other_free (by decide) (by decide) _ _ le_rfl
      (repl_other_free (by decide) (by decide) _ _ le_rfl
      (repl_other_free (by decide) (by decide) _ _ le_rfl
      (repl_self_free (by decide) (by decide) _ _ le_rfl))))
  · exact repl_other_free (by decide) (by decide) _ _ le_rfl
      (repl_other_free (by decide) (by decide) _ _ le_rfl
      (repl_other_free (by decide) (by decide) _ _ le_rfl
      (repl_self_free (by decide) (by decide) _ _ le_rfl)))
  · exact repl_other_free (by decide) (by decide) _ _ le_rfl
      (repl_other_free (by decide) (by decide) _ _ le_rfl
      (repl_self_free (by decide) (by decide) _ _ le_rfl))
  · exact repl_other_free (by decide) (by decide) _ _ le_rfl
      (repl_self_free (by decide) (by decide) _ _ le_rfl)
  · exact repl_self_free (by decide) (by decide) _ _ le_rfl

theorem mem_replAux {pat r : Str} {c : Char} :
    ∀ (j : Nat) (s : Str), c ∈ replAux pat r j s → c ∈ r ∨ c ∈ s := by
  intro j s
  induction s generalizing j with
  | nil => intro h; cases j <;> exact absurd h (List.not_mem_nil c)
  | cons a t ih =>
    intro h
    cases j with
    | succ j =>
      rcases ih j h with h | h
      · exact Or.inl h
      · exact Or.inr (List.mem_cons_of_mem a h)
    | zero =>
      rw [replAux] at h
      split at h
      · rcases List.mem_append.mp h with h | h
        · exact Or.inl h
        · rcases ih _ h with h | h
          · exact Or.inl h
          · exact Or.inr (List.mem_cons_of_mem a h)
      · rcases List.mem_cons.mp h with h | h
        · exact Or.inr (h ▸ List.mem_cons_self a t)
        · rcases ih 0 h with h | h
          · exact Or.inl h
          · exact Or.inr (List.mem_cons_of_mem a h)

theorem mem_collapseAux {c : Char} : ∀ (b : Bool) (s : Str),
    c ∈ collapseAux b s → c = ' ' ∨ c ∈ s := by
  intro b s
  induction s generalizing b with
  | nil => intro h; cases h
  | cons a t ih =>
    intro h
    rw [collapseAux] at h
    split at h
    · split at h
      · rcases ih true h with h | h
        · exact Or.inl h
        · exact Or.inr (List.mem_cons_of_mem a h)
      · rcases List.mem_cons.mp h with h | h
        · exact Or.inl h
        · rcases ih true h with h | h
          · exact Or.inl h
          · exact Or.inr (List.mem_cons_of_mem a h)
    · rcases List.mem_cons.mp h with h | h
      · exact Or.inr (h ▸ List.mem_cons_self a t)
      · rcases ih false h with h | h
        · exact Or.inl h
        · exact Or.inr (List.mem_cons_of_mem a h)

theorem stripR_append (s : Str) : s = stripR s ++ (s.reverse.takeWhile isWS).reverse := by
  unfold stripR
  rw [← List.reverse_append, List.takeWhile_append_dropWhile, List.reverse_reverse]

theorem stripR_pfx (s : Str) : stripR s <+: s :=
  ⟨(s.reverse.takeWhile isWS).reverse, (stripR_append s).symm⟩

theorem mem_stripL {c : Char} {s : Str} (h : c ∈ stripL s) : c ∈ s :=
  (List.dropWhile_suffix isWS).mem h

theorem mem_stripR {c : Char} {s : Str} (h : c ∈ stripR s) : c ∈ s :=
  (stripR_pfx s).mem h

/-- No ASCII uppercase letter in the string. -/
def noUpperB (s : Str) : Bool := s.all (fun c => !isUpperA c)

theorem noUpperB_lower (s : Str) : noUpperB (lowerStr s) = true := by
  simp only [noUpperB, lowerStr, List.all_map, List.all_eq_true]
  intro a _
  simp only [Function.comp_apply, Bool.not_eq_true']
  unfold lcChar
  split
  · rename_i hup
    unfold isUpperA at hup ⊢
    simp only [Bool.and_eq_true, decide_eq_true_eq] at hup
    have hv : a.toNat + 32 < 55296 := by omega
    rw [charOfNat_toNat hv]
    simp only [Bool.and_eq_false_iff, decide_eq_false_iff_not]
    omega
  · rename_i hup
    simpa using hup

theorem noUpperB_of_mem {s : Str} (h : noUpperB s = true) {c : Char} (hc : c ∈ s) :
    isUpperA c = false := by
  simp only [noUpperB, List.all_eq_true] at h
  simpa using h c hc

theorem noUpperB_replaceAll {pat r s : Str} (hr : noUpperB r = true)
    (hs : noUpperB s = true) : noUpperB (replaceAll pat r s) = true := by
  simp only [noUpperB, List.all_eq_true]
  intro c hc
  rcases mem_replAux 0 s hc with h | h
  · simpa using noUpperB_of_mem hr h
  · simpa using noUpperB_of_mem hs h

theorem noUpperB_expand {s : Str} (hs : noUpperB s = true) :
    noUpperB (expand_contractions s) = true := by
  simp only [expand_contractions, contractions, List.foldl_cons, List.foldl_nil]
  repeat apply noUpperB_replaceAll (by decide)
  exact hs

theorem noUpperB_collapse {s : Str} (hs : noUpperB s = true) (b : Bool) :
    noUpperB (collapseAux b s) = true := by
  simp only [noUpperB, List.all_eq_true]
  intro c hc
  rcases mem_collapseAux b s hc with h | h
  · rw [h]; decide
  · simpa using noUpperB_of_mem hs h

theorem noUpperB_strip {s : Str} (hs : noUpperB s = true) :
    noUpperB (stripWS s) = true := by
  simp only [noUpperB, List.all_eq_true]
  intro c hc
  have : c ∈ s := mem_stripL (mem_stripR hc)
  simpa using noUpperB_of_mem hs this

theorem lowerStr_id {s : Str} (hs : noUpperB s = true) : lowerStr s = s := by
  unfold lowerStr
  have h : List.map lcChar s = List.map id s :=
    List.map_congr_left (fun c hc => by
      unfold lcChar
      rw [if_neg (by simp [noUpperB_of_mem hs hc])]
      rfl)
  rw [h, List.map_id]

/-- Whitespace-normal scan: every whitespace character is a single space and no
space follows a space (`prev` records whether the previous character was one). -/
def cnAux : Bool → Str → Bool
  | _, [] => true
  | prev, c :: t => if isWS c then (c == ' ' && !prev && cnAux true t) else cnAux false t

theorem cnAux_head_nonws {b b2 : Bool} : ∀ {s : Str},
    (s = [] ∨ ∀ c, s.head? = some c → isWS c = false) → cnAux b s = cnAux b2 s := by
  intro s h
  cases s with
  | nil => rfl
  | cons c t =>
    rcases h with h | h
    · cases h
    · have hc := h c rfl
      rw [cnAux, cnAux, if_neg (by simp [hc]), if_neg (by simp [hc])]

theorem cnAux_collapse : ∀ (s : Str) (b : Bool), cnAux b (collapseAux b s) = true := by
  intro s
  induction s with
  | nil => intro b; rfl
  | cons c t ih =>
    intro b
    rw [collapseAux]
    split
    · rename_i hws
      split
      · rename_i hb
        subst hb
        exact ih true
      · rename_i hb
        rw [Bool.not_eq_true] at hb
        subst hb
        rw [cnAux, if_pos (by decide)]
        simp only [Bool.and_eq_true]
        exact ⟨⟨by decide, by decide⟩, ih true⟩
    · rename_i hws
      rw [cnAux, if_neg (by simpa using hws)]
      exact ih false

theorem cnAux_collapse_id : ∀ (s : Str) (b : Bool), cnAux b s = true → collapseAux b s = s := by
  intro s
  induction s with
  | nil => intro b h; rfl
  | cons c t ih =>
    intro b h
    rw [cnAux] at h
    rw [collapseAux]
    split
    · rename_i hws
      rw [if_pos hws] at h
      simp only [Bool.and_eq_true, beq_iff_eq, Bool.not_eq_eq_eq_not, Bool.not_true] at h
      obtain ⟨⟨hsp, hprev⟩, ht⟩ := h
      subst hprev
      rw [if_neg (by simp)]
      rw [hsp, ih true ht]
    · rename_i hws
      rw [if_neg hws] at h
      rw [ih false h]

theorem cnAux_append_left {z : Str} : ∀ (y : Str) (b : Bool),
    cnAux b (y ++ z) = true → cnAux b y = true := by
  intro y
  induction y with
  | nil => intro b h; rfl
  | cons c t ih =>
    intro b h
    rw [List.cons_append, cnAux] at h
    rw [cnAux]
    split
    · rename_i hws
      rw [if_pos hws] at h
      simp only [Bool.and_eq_true] at h ⊢
      exact ⟨h.1, ih true h.2⟩
    · rename_i hws
      rw [if_neg hws] at h
      exact ih false h

theorem cnAux_stripL {s : Str} (h : cnAux false s = true) : cnAux false (stripL s) = true := by
  cases s with
  | nil => exact h
  | cons c t =>
    unfold stripL
    rw [cnAux] at h
    by_cases hws : isWS c = true
    · rw [if_pos hws] at h
      simp only [Bool.and_eq_true, beq_iff_eq, Bool.not_eq_eq_eq_not, Bool.not_false] at h
      obtain ⟨⟨hsp, -⟩, ht⟩ := h
      rw [List.dropWhile_cons_of_pos hws]
      have hhead : t = [] ∨ ∀ d, t.head? = some d → isWS d = false := by
        cases t with
        | nil => exact Or.inl rfl
        | cons d t2 =>
          refine Or.inr ?_
          intro d2 hd2
          rw [List.head?_cons, Option.some.injEq] at hd2
          subst hd2
          rw [cnAux] at ht
          by_contra hcon
          rw [Bool.not_eq_false] at hcon
          rw [if_pos hcon] at ht
          simp at ht
      have hdw : List.dropWhile isWS t = t := by
        cases t with
        | nil => rfl
        | cons d t2 =>
          rcases hhead with h2 | h2
          · cases h2
          · exact List.dropWhile_cons_of_neg (by simp [h2 d rfl])
      rw [hdw]
      rw [cnAux_head_nonws hhead] at ht
      exact ht
    · rw [List.dropWhile_cons_of_neg hws]
      rw [if_neg hws] at h
      rw [cnAux, if_neg hws]
      exact h

theorem cnAux_stripR {s : Str} (h : cnAux false s = true) : cnAux false (stripR s) = true := by
  obtain ⟨w, hw⟩ := stripR_pfx s
  rw [← hw] at h
  exact cnAux_append_left (stripR s) false h

/-- `collapseWS` is the identity on the stripped output of a previous collapse. -/
theorem collapse_strip_collapse (s : Str) :
    collapseWS (stripWS (collapseWS s)) = stripWS (collapseWS s) := by
  unfold collapseWS stripWS
  apply cnAux_collapse_id
  apply cnAux_stripR
  apply cnAux_stripL
  exact cnAux_collapse s false

/-- No whitespace character in the string. -/
def wsFreeB (s : Str) : Bool := s.all (fun c => !isWS c)

theorem wsFreeB_of_mem {s : Str} (h : wsFreeB s = true) {c : Char} (hc : c ∈ s) :
    isWS c = false := by
  simp only [wsFreeB, List.all_eq_true] at h
  simpa using h c hc

theorem wsFreeB_tail {a : Char} {w : Str} (h : wsFreeB (a :: w) = true) : wsFreeB w = true := by
  simp only [wsFreeB, List.all_eq_true] at h ⊢
  exact fun c hc => h c (List.mem_cons_of_mem a hc)

theorem collapse_pfx {w : Str} (hwf : wsFreeB w = true) :
    ∀ t, pfxB w (collapseAux false t) = true → pfxB w t = true := by
  induction w with
  | nil => intro t h; rfl
  | cons a w2 ih =>
    intro t h
    cases t with
    | nil => exact h
    | cons c t2 =>
      rw [collapseAux] at h
      split at h
      · rename_i hws
        rw [if_neg (by decide)] at h
        simp only [pfxB, Bool.and_eq_true, beq_iff_eq] at h
        have ha := wsFreeB_of_mem hwf (List.mem_cons_self a w2)
        rw [h.1] at ha
        cases ha
      · rename_i hws
        simp only [pfxB, Bool.and_eq_true] at h ⊢
        exact ⟨h.1, ih (wsFreeB_tail hwf) t2 h.2⟩

theorem collapse_sub {k : Str} (hk : k ≠ []) (hwf : wsFreeB k = true) :
    ∀ (s : Str) (b : Bool), subB k (collapseAux b s) = true → subB k s = true := by
  intro s
  induction s with
  | nil =>
    intro b h
    cases k with
    | nil => exact absurd rfl hk
    | cons a k2 => cases h
  | cons c t ih =>
    intro b h
    rw [collapseAux] at h
    split at h
    · rename_i hws
      have hsub : subB k t = true := by
        split at h
        · exact ih true h
        · simp only [subB, Bool.or_eq_true] at h
          rcases h with h | h
          · cases hkk : k with
            | nil => exact absurd hkk hk
            | cons a k2 =>
              rw [hkk] at h
              simp only [pfxB, Bool.and_eq_true, beq_iff_eq] at h
              have ha := wsFreeB_of_mem hwf (hkk ▸ List.mem_cons_self a k2)
              rw [h.1] at ha
              cases ha
          · exact ih true h
      simp only [subB, Bool.or_eq_true]
      exact Or.inr hsub
    · rename_i hws
      simp only [subB, Bool.or_eq_true] at h ⊢
      rcases h with h | h
      · cases hkk : k with
        | nil => exact absurd hkk hk
        | cons a k2 =>
          rw [hkk] at h
          simp only [pfxB, Bool.and_eq_true] at h
          refine Or.inl ?_
          simp only [pfxB, Bool.and_eq_true]
          exact ⟨h.1, collapse_pfx (wsFreeB_tail (hkk ▸ hwf)) t h.2⟩
      · exact Or.inr (ih false h)

theorem collapse_absence {k : Str} (hk : k ≠ []) (hwf : wsFreeB k = true) {s : Str}
    (h : subB k s = false) : subB k (collapseWS s) = false := by
  by_contra hc
  rw [Bool.not_eq_false] at hc
  rw [collapse_sub hk hwf s false hc] at h
  cases h

theorem strip_absence {k s : Str} (h : subB k s = false) : subB k (stripWS s) = false := by
  by_contra hc
  rw [Bool.not_eq_false] at hc
  rw [subB_iff] at hc
  have hinf : stripWS s <:+: s :=
    List.IsInfix.trans (stripR_pfx (stripL s)).isInfix
      (List.dropWhile_suffix isWS).isInfix
  have : subB k s = true := subB_iff.mpr (hc.trans hinf)
  rw [h] at this
  cases this

theorem dropWhile_idem {p : Char → Bool} : ∀ (l : Str),
    List.dropWhile p (List.dropWhile p l) = List.dropWhile p l := by
  intro l
  induction l with
  | nil => rfl
  | cons c t ih =>
    by_cases hc : p c = true
    · rw [List.dropWhile_cons_of_pos hc, ih]
    · rw [List.dropWhile_cons_of_neg hc, List.dropWhile_cons_of_neg hc]

theorem stripR_idem (z : Str) : stripR (stripR z) = stripR z := by
  unfold stripR
  rw [List.reverse_reverse, dropWhile_idem]

theorem stripL_head_nonws {s : Str} {c : Char} (h : (stripL s).head? = some c) :
    isWS c = false := by
  induction s with
  | nil => cases h
  | cons a t ih =>
    unfold stripL at h
    by_cases ha : isWS a = true
    · rw [List.dropWhile_cons_of_pos ha] at h
      exact ih h
    · rw [List.dropWhile_cons_of_neg ha, List.head?_cons, Option.some.injEq] at h
      subst h
      simpa using ha

theorem stripWS_idem (z : Str) : stripWS (stripWS z) = stripWS z := by
  unfold stripWS
  have hL : stripL (stripR (stripL z)) = stripR (stripL z) := by
    cases hZ : stripR (stripL z) with
    | nil => rfl
    | cons a w =>
      have hpfx := stripR_pfx (stripL z)
      rw [hZ] at hpfx
      obtain ⟨rest, hrest⟩ := hpfx
      have hhead : (stripL z).head? = some a := by
        rw [← hrest]
        rfl
      have := stripL_head_nonws hhead
      unfold stripL
      rw [List.dropWhile_cons_of_neg (by simp [this])]
  rw [hL, stripR_idem]

theorem expand_id_of_keys (x : Str)
    (h1 : subB ['n', apos, 't'] x = false)
    (h2 : subB [apos, 'r', 'e'] x = false)
    (h3 : subB [apos, 'v', 'e'] x = false)
    (h4 : subB [apos, 'l', 'l'] x = false)
    (h5 : subB [apos, 'd'] x = false)
    (h6 : subB [apos, 'm'] x = false)
    (h7 : subB ['l', 'e', 't', apos, 's'] x = false) :
    expand_contractions x = x := by
  have hw : subB ['w', 'o', 'n', apos, 't'] x = false := by
    by_contra hc
    rw [Bool.not_eq_false] at hc
    have := subB_trans (show subB ['n', apos, 't'] ['w', 'o', 'n', apos, 't'] = true by decide) hc
    rw [h1] at this
    cases this
  have hcn : subB ['c', 'a', 'n', apos, 't'] x = false := by
    by_contra hc
    rw [Bool.not_eq_false] at hc
    have := subB_trans (show subB ['n', apos, 't'] ['c', 'a', 'n', apos, 't'] = true by decide) hc
    rw [h1] at this
    cases this
  simp only [expand_contractions, contractions, List.foldl_cons, List.foldl_nil]
  rw [replaceAll_id x hw, replaceAll_id x hcn, replaceAll_id x h1, replaceAll_id x h2,
    replaceAll_id x h3, replaceAll_id x h4, replaceAll_id x h5, replaceAll_id x h6,
    replaceAll_id x h7]

/-- Claim C8: the text normalizer is idempotent and total — normalizing
already-normalized text is a no-op, and the empty string maps to the empty
string. -/
theorem preprocess_text_idem (s : Str) :
    preprocess_text (preprocess_text s) = preprocess_text s ∧
    preprocess_text [] = [] := by
  refine ⟨?_, rfl⟩
  by_cases hs : s = []
  · subst hs
    rfl
  · have hpp : preprocess_text s =
        stripWS (collapseWS (expand_contractions (lowerStr s))) := by
      unfold preprocess_text
      rw [if_neg hs]
    rw [hpp]
    by_cases hX : stripWS (collapseWS (expand_contractions (lowerStr s))) = []
    · rw [hX]
      rfl
    · unfold preprocess_text
      rw [if_neg hX]
      have hnu : noUpperB (stripWS (collapseWS (expand_contractions (lowerStr s)))) = true := by
        apply noUpperB_strip
        have h2 : noUpperB (expand_contractions (lowerStr s)) = true :=
          noUpperB_expand (noUpperB_lower s)
        unfold collapseWS
        exact noUpperB_collapse h2 false
      rw [lowerStr_id hnu]
      obtain ⟨k1, k2, k3, k4, k5, k6, k7⟩ := expand_free_keys (lowerStr s)
      have u1 := strip_absence (collapse_absence (by decide) (by decide) k1)
      have u2 := strip_absence (collapse_absence (by decide) (by decide) k2)
      have u3 := strip_absence (collapse_absence (by decide) (by decide) k3)
      have u4 := strip_absence (collapse_absence (by decide) (by decide) k4)
      have u5 := strip_absence (collapse_absence (by decide) (by decide) k5)
      have u6 := strip_absence (collapse_absence (by decide) (by decide) k6)
      have u7 := strip_absence (collapse_absence (by decide) (by decide) k7)
      rw [expand_id_of_keys _ u1 u2 u3 u4 u5 u6 u7]
      rw [collapse_strip_collapse (expand_contractions (lowerStr s))]
      exact stripWS_idem (collapseWS (expand_contractions (lowerStr s)))
